import Mathlib

/-!
Verification of the response-navigation and query-construction core of the
`newrelic-cli` Go repository: GUID codec and identifier resolver
(`api/resolve.go`), safe tree accessors (`api/client.go`), GraphQL response
mappers (`api/entities.go`, users, `api/logs.go`), account-ID validation
(`internal/validate/validate.go`), and the flexible time parser with the
deployment time-range filter.

Go strings are byte sequences; we embed them as `List Nat` (each element a
byte value).  All string literals appearing in the verified code are ASCII,
so `gs` maps a Lean string literal to its byte list via code points.
Go standard-library functions used by the code (base64, strings.Split,
strconv.Atoi, time arithmetic) are embedded by their documented semantics.
-/

/-- Go strings as byte lists. -/
abbrev GoStr := List Nat

/-- Byte list of an ASCII Lean string literal. -/
def gs (s : String) : GoStr := s.data.map Char.toNat

/-! ## base64 (model of Go `encoding/base64` StdEncoding)

Standard alphabet, `=` padding.  Encoding turns each 3-byte group into four
alphabet characters; a trailing group of 1 or 2 bytes is padded with `==` or
`=`.  Decoding processes 4-character quantums, accepts padding only in the
final quantum, and (like Go's non-strict decoder) does not check that unused
trailing bits are zero.  Go's decoder ignores CR and LF anywhere in the
input, which we model by filtering them out first. -/

/-- The standard base64 alphabet as a function from a 6-bit index to the
character (byte).  Indices ≥ 64 never occur for byte input; they map to the
last character. -/
def b64chr (i : Nat) : Nat :=
  if i < 26 then 65 + i
  else if i < 52 then 97 + (i - 26)
  else if i < 62 then 48 + (i - 52)
  else if i = 62 then 43
  else 47

/-- Inverse of the alphabet: the 6-bit value of a character, or `none` for a
character outside the standard alphabet (including the padding `=`). -/
def b64val (c : Nat) : Option Nat :=
  if 65 ≤ c ∧ c ≤ 90 then some (c - 65)
  else if 97 ≤ c ∧ c ≤ 122 then some (26 + (c - 97))
  else if 48 ≤ c ∧ c ≤ 57 then some (52 + (c - 48))
  else if c = 43 then some 62
  else if c = 47 then some 63
  else none

/-- base64 encoding of a byte list (with padding). -/
def encodeB64 : List Nat → List Nat
  | [] => []
  | [b1] => [b64chr (b1 / 4), b64chr (b1 % 4 * 16), 61, 61]
  | [b1, b2] => [b64chr (b1 / 4), b64chr (b1 % 4 * 16 + b2 / 16),
                 b64chr (b2 % 16 * 4), 61]
  | b1 :: b2 :: b3 :: rest =>
      b64chr (b1 / 4) :: b64chr (b1 % 4 * 16 + b2 / 16) ::
      b64chr (b2 % 16 * 4 + b3 / 64) :: b64chr (b3 % 64) :: encodeB64 rest

/-- base64 decoding of a CR/LF-free character list, 4-character quantums. -/
def decodeB64Quantums : List Nat → Option (List Nat)
  | [] => some []
  | c1 :: c2 :: c3 :: c4 :: rest =>
      match b64val c1, b64val c2 with
      | some i1, some i2 =>
          if c3 = 61 then
            if c4 = 61 ∧ rest = [] then some [i1 * 4 + i2 / 16] else none
          else
            match b64val c3 with
            | some i3 =>
                if c4 = 61 then
                  if rest = [] then
                    some [i1 * 4 + i2 / 16, i2 % 16 * 16 + i3 / 4]
                  else none
                else
                  match b64val c4 with
                  | some i4 =>
                      match decodeB64Quantums rest with
                      | some tail =>
                          some ((i1 * 4 + i2 / 16) :: (i2 % 16 * 16 + i3 / 4) ::
                                (i3 % 4 * 64 + i4) :: tail)
                      | none => none
                  | none => none
            | none => none
      | _, _ => none
  | _ => none

/-- Model of Go `base64.StdEncoding.DecodeString`: CR/LF are ignored, the
rest must be whole 4-character quantums over the standard alphabet with
padding only at the end. -/
def decodeB64 (s : List Nat) : Option (List Nat) :=
  decodeB64Quantums (s.filter (fun c => decide (c ≠ 13) && decide (c ≠ 10)))

theorem b64chr_ge (i : Nat) : 43 ≤ b64chr i := by
  unfold b64chr; split_ifs <;> omega

theorem b64chr_ne_pad (i : Nat) : b64chr i ≠ 61 := by
  unfold b64chr; split_ifs <;> omega

set_option maxRecDepth 4000 in
theorem b64val_b64chr (i : Nat) (h : i < 64) : b64val (b64chr i) = some i := by
  simp only [b64chr, b64val]
  split_ifs <;> first | (congr 1; omega) | omega

theorem encodeB64_ge (bs : List Nat) : ∀ c ∈ encodeB64 bs, 43 ≤ c := by
  induction bs using encodeB64.induct with
  | case1 => simp [encodeB64]
  | case2 b1 =>
      intro c hc
      simp only [encodeB64, List.mem_cons, List.not_mem_nil, or_false] at hc
      rcases hc with h | h | h | h <;> subst h
      · exact b64chr_ge _
      · exact b64chr_ge _
      · omega
      · omega
  | case3 b1 b2 =>
      intro c hc
      simp only [encodeB64, List.mem_cons, List.not_mem_nil, or_false] at hc
      rcases hc with h | h | h | h <;> subst h
      · exact b64chr_ge _
      · exact b64chr_ge _
      · exact b64chr_ge _
      · omega
  | case4 b1 b2 b3 rest ih =>
      intro c hc
      simp only [encodeB64, List.mem_cons] at hc
      rcases hc with h | h | h | h | h
      · subst h; exact b64chr_ge _
      · subst h; exact b64chr_ge _
      · subst h; exact b64chr_ge _
      · subst h; exact b64chr_ge _
      · exact ih c h

theorem filter_encodeB64 (bs : List Nat) :
    (encodeB64 bs).filter (fun c => decide (c ≠ 13) && decide (c ≠ 10))
      = encodeB64 bs := by
  rw [List.filter_eq_self]
  intro c hc
  have := encodeB64_ge bs c hc
  simp only [Bool.and_eq_true, decide_eq_true_eq]
  omega

theorem decode_encode (bs : List Nat) (h : ∀ b ∈ bs, b < 256) :
    decodeB64 (encodeB64 bs) = some bs := by
  unfold decodeB64
  rw [filter_encodeB64]
  induction bs using encodeB64.induct with
  | case1 => rfl
  | case2 b1 =>
      have h1 : b1 < 256 := h b1 (by simp)
      have d1 := b64val_b64chr (b1 / 4) (by omega)
      have d2 := b64val_b64chr (b1 % 4 * 16) (by omega)
      simp [encodeB64, decodeB64Quantums, d1, d2]
      all_goals omega
  | case3 b1 b2 =>
      have h1 : b1 < 256 := h b1 (by simp)
      have h2 : b2 < 256 := h b2 (by simp)
      have d1 := b64val_b64chr (b1 / 4) (by omega)
      have d2 := b64val_b64chr (b1 % 4 * 16 + b2 / 16) (by omega)
      have d3 := b64val_b64chr (b2 % 16 * 4) (by omega)
      have p3 : b64chr (b2 % 16 * 4) = 61 ↔ False :=
        iff_false_intro (b64chr_ne_pad _)
      simp [encodeB64, decodeB64Quantums, d1, d2, d3, p3]
      all_goals omega
  | case4 b1 b2 b3 rest ih =>
      have h1 : b1 < 256 := h b1 (by simp)
      have h2 : b2 < 256 := h b2 (by simp)
      have h3 : b3 < 256 := h b3 (by simp)
      have hrest : ∀ b ∈ rest, b < 256 := fun b hb => h b (by simp [hb])
      have d1 := b64val_b64chr (b1 / 4) (by omega)
      have d2 := b64val_b64chr (b1 % 4 * 16 + b2 / 16) (by omega)
      have d3 := b64val_b64chr (b2 % 16 * 4 + b3 / 64) (by omega)
      have d4 := b64val_b64chr (b3 % 64) (by omega)
      have p3 : b64chr (b2 % 16 * 4 + b3 / 64) = 61 ↔ False :=
        iff_false_intro (b64chr_ne_pad _)
      have p4 : b64chr (b3 % 64) = 61 ↔ False :=
        iff_false_intro (b64chr_ne_pad _)
      simp [encodeB64, decodeB64Quantums, d1, d2, d3, d4, p3, p4, ih hrest]
      all_goals omega

/-! ## strings.Split on the pipe byte (model of Go `strings.Split(s, "|")`) -/

/-- Split a byte list on a separator byte; `[[]]` for the empty list, as in
Go where `strings.Split("", sep)` is `[""]`. -/
def splitOnByte (sep : Nat) : List Nat → List GoStr
  | [] => [[]]
  | c :: rest =>
      if c = sep then [] :: splitOnByte sep rest
      else
        match splitOnByte sep rest with
        | [] => [[c]]
        | g :: gss => (c :: g) :: gss

theorem splitOnByte_ne_nil (sep : Nat) (s : List Nat) :
    splitOnByte sep s ≠ [] := by
  induction s with
  | nil => simp [splitOnByte]
  | cons c rest ih =>
      simp only [splitOnByte]
      split
      · simp
      · split
        · simp
        · simp

theorem splitOnByte_no_sep (sep : Nat) (l : List Nat) (h : sep ∉ l) :
    splitOnByte sep l = [l] := by
  induction l with
  | nil => rfl
  | cons c rest ih =>
      simp only [List.mem_cons, not_or] at h
      simp only [splitOnByte]
      rw [if_neg (by omega), ih h.2]

theorem splitOnByte_append (sep : Nat) (l r : List Nat) (h : sep ∉ l) :
    splitOnByte sep (l ++ sep :: r) = l :: splitOnByte sep r := by
  induction l with
  | nil => simp [splitOnByte]
  | cons c rest ih =>
      simp only [List.mem_cons, not_or] at h
      simp only [List.cons_append, splitOnByte, List.append_eq]
      rw [if_neg (by omega), ih h.2]

/-! ## Errors

A single inductive covering every `error` value produced by the verified
code.  Each constructor records the `fmt.Errorf` / struct literal at its
source site; wrapped errors (`%w`) keep the inner error as an argument. -/

inductive GoError where
  /-- resolve.go: "invalid GUID format: %w" (base64 decode failure). -/
  | invalidBase64 : GoError
  /-- resolve.go: "invalid GUID format: expected 4 parts, got %d". -/
  | wrongPartCount (n : Nat) : GoError
  /-- resolve.go: "GUID is not for an APM application (domain=%s, type=%s)". -/
  | notAPMApp (domain entityType : GoStr) : GoError
  /-- resolve.go: "failed to search for application: %w". -/
  | searchFailed (inner : GoError) : GoError
  /-- resolve.go: "no APM application found with name: %s". -/
  | noAppFound (name : GoStr) : GoError
  /-- resolve.go: "multiple applications found with name '%s', ...". -/
  | multipleApps (name : GoStr) : GoError
  /-- resolve.go: "failed to extract app ID from entity: %w". -/
  | extractFailed (inner : GoError) : GoError
  /-- client.go and mappers: `&ResponseError{Message: msg}`. -/
  | respError (msg : GoStr) : GoError
  /-- logs.go: "rule not found: %s". -/
  | ruleNotFound (id : GoStr) : GoError
  /-- errors.go: `ErrAccountIDRequired`. -/
  | accountIDRequired : GoError
  /-- client.go: "invalid account ID: %s". -/
  | invalidAccountID (id : GoStr) : GoError
  /-- any other `fmt.Errorf` message. -/
  | other (msg : GoStr) : GoError
deriving DecidableEq

/-! ## api/resolve.go -/

/-- `ParseGUID` (api/resolve.go): base64-decode, split on `|`, require
exactly 4 parts. -/
def ParseGUID (guid : GoStr) :
    Except GoError (GoStr × GoStr × GoStr × GoStr) :=
  match decodeB64 guid with
  | none => .error .invalidBase64
  | some decoded =>
      match splitOnByte 124 decoded with
      | [p0, p1, p2, p3] => .ok (p0, p1, p2, p3)
      | parts => .error (.wrongPartCount parts.length)

/-- `ExtractAppIDFromGUID` (api/resolve.go). -/
def ExtractAppIDFromGUID (guid : GoStr) : Except GoError GoStr :=
  match ParseGUID guid with
  | .error e => .error e
  | .ok (_, domain, entityType, entityID) =>
      if domain ≠ gs "APM" ∨ entityType ≠ gs "APPLICATION" then
        .error (.notAPMApp domain entityType)
      else .ok entityID

/-- `isNumeric` (api/resolve.go): non-empty and all ASCII digits. -/
def isNumeric (s : GoStr) : Bool :=
  match s with
  | [] => false
  | _ => s.all (fun c => 48 ≤ c && c ≤ 57)

/-- `base64Chars` (api/resolve.go). -/
def base64Chars : GoStr :=
  gs "ABCDEFGHIJKLMNOPQRSTUVWXYZabcdefghijklmnopqrstuvwxyz0123456789+/="

/-- `looksLikeGUID` (api/resolve.go): length ≥ 40 and every character in
the base64 alphabet (including `=`). -/
def looksLikeGUID (s : GoStr) : Bool :=
  if s.length < 40 then false
  else s.all (fun c => base64Chars.contains c)

/-- `Entity` (api/types.go); `Tags` are irrelevant to the verified paths.
The Go field `Type` is rendered `TypeStr` (`Type` is a Lean keyword). -/
structure Entity where
  GUID : GoStr
  Name : GoStr
  TypeStr : GoStr
  EntityType : GoStr
  Domain : GoStr
  AccountID : Int
deriving DecidableEq

/-- The exact-name entity-search query built by `resolveAppName`
(api/resolve.go, `fmt.Sprintf`). -/
def resolveQuery (name : GoStr) : GoStr :=
  gs "name = '" ++ name ++ gs "' AND domain = 'APM' AND type = 'APPLICATION'"

/-- `resolveAppName` (api/resolve.go).  The entity search
(`c.SearchEntities`, one NerdGraph round-trip) is abstracted as the
function argument `search`. -/
def resolveAppName (search : GoStr → Except GoError (List Entity))
    (name : GoStr) : Except GoError GoStr :=
  match search (resolveQuery name) with
  | .error e => .error (.searchFailed e)
  | .ok entities =>
      match entities with
      | [] => .error (.noAppFound name)
      | [entity] =>
          match ExtractAppIDFromGUID entity.GUID with
          | .error e => .error (.extractFailed e)
          | .ok appID => .ok appID
      | _ :: _ :: _ => .error (.multipleApps name)

/-- `ResolveAppID` (api/resolve.go).  The returned Bool records whether a
name-search network call was issued. -/
def ResolveAppID (search : GoStr → Except GoError (List Entity))
    (identifier : GoStr) : Except GoError GoStr × Bool :=
  if isNumeric identifier then (.ok identifier, false)
  else if looksLikeGUID identifier then
    match ExtractAppIDFromGUID identifier with
    | .ok appID => (.ok appID, false)
    | .error _ => (resolveAppName search identifier, true)
  else (resolveAppName search identifier, true)

/-! ## Safe tree navigation (api/client.go)

Decoded JSON trees (`interface{}` after `json.Unmarshal`) are embedded as
`JValue`: Go gives `nil`, `bool`, `string`, `float64` (all JSON numbers),
`[]interface{}` and `map[string]interface{}`.  Numbers are embedded as
rationals (every finite float64 is rational); Go's `int(f)` conversion
truncates toward zero.  A Go map is an association list here; indexing a
missing key yields the zero value `nil`, i.e. `jnull`. -/

inductive JValue where
  | jnull : JValue
  | jbool (b : Bool) : JValue
  | jstr (s : GoStr) : JValue
  | jnum (q : ℚ) : JValue
  | jarr (elems : List JValue) : JValue
  | jobj (fields : List (GoStr × JValue)) : JValue

/-- A decoded JSON object (`map[string]interface{}`). -/
abbrev JObj := List (GoStr × JValue)

/-- Go map indexing `m[key]`: zero value (`nil` interface) when missing. -/
def jget (m : JObj) (key : GoStr) : JValue :=
  match m.find? (fun kv => kv.1 = key) with
  | some kv => kv.2
  | none => .jnull

/-- Truncation toward zero, the semantics of Go's `int(f)` for a float64
in range. -/
def ratTrunc (q : ℚ) : Int := q.num.tdiv q.den

/-- `safeString` (api/client.go). -/
def safeString : JValue → GoStr
  | .jstr s => s
  | _ => []

/-- `safeInt` (api/client.go): type-assert float64, truncate to int. -/
def safeInt : JValue → Int
  | .jnum q => ratTrunc q
  | _ => 0

/-- `safeMap` (api/client.go): type-assert `map[string]interface{}`;
zero value (nil map, here `[]`) and `false` otherwise. -/
def safeMap : JValue → JObj × Bool
  | .jobj m => (m, true)
  | _ => ([], false)

/-- `safeSlice` (api/client.go): type-assert `[]interface{}`. -/
def safeSlice : JValue → List JValue × Bool
  | .jarr xs => (xs, true)
  | _ => ([], false)

/-! ## api/entities.go: SearchEntities response mapping -/

/-- The `Entity` built from one element of the `entities` list
(api/entities.go, loop body). -/
def entityOfJ (entity : JObj) : Entity :=
  { GUID := safeString (jget entity (gs "guid"))
    Name := safeString (jget entity (gs "name"))
    TypeStr := safeString (jget entity (gs "type"))
    EntityType := safeString (jget entity (gs "entityType"))
    Domain := safeString (jget entity (gs "domain"))
    AccountID := safeInt (jget entity (gs "accountId")) }

/-- `SearchEntities` (api/entities.go), response-mapping part: walks
`actor.entitySearch.results.entities`, with a named error at each level;
non-object list elements are skipped. -/
def SearchEntitiesMap (result : JObj) : Except GoError (List Entity) :=
  match safeMap (jget result (gs "actor")) with
  | (_, false) =>
      .error (.respError (gs "unexpected response format: missing actor"))
  | (actor, true) =>
  match safeMap (jget actor (gs "entitySearch")) with
  | (_, false) =>
      .error (.respError (gs "unexpected response format: missing entitySearch"))
  | (entitySearch, true) =>
  match safeMap (jget entitySearch (gs "results")) with
  | (_, false) =>
      .error (.respError (gs "unexpected response format: missing results"))
  | (results, true) =>
  match safeSlice (jget results (gs "entities")) with
  | (_, false) =>
      .error (.respError (gs "unexpected response format: missing entities"))
  | (entitiesData, true) =>
      .ok (entitiesData.filterMap (fun e =>
        match safeMap e with
        | (_, false) => none
        | (entity, true) => some (entityOfJ entity)))

/-! ## Users mappers (api/users.go) -/

/-- `User` (api/types.go); Go field `Type` rendered `TypeStr`. -/
structure User where
  ID : GoStr
  Name : GoStr
  Email : GoStr
  TypeStr : GoStr
  Groups : List GoStr
  AuthenticationDomain : GoStr
deriving DecidableEq

/-- The user type display name (`type { displayName }`), shared by both
users mappers. -/
def userTypeOfJ (user : JObj) : GoStr :=
  match safeMap (jget user (gs "type")) with
  | (t, true) => safeString (jget t (gs "displayName"))
  | (_, false) => []

/-- Users contributed by one authentication-domain element
(`ListUsers` inner loops; malformed levels are skipped via `continue`). -/
def usersOfDomainJ (d : JValue) : List User :=
  match safeMap d with
  | (_, false) => []
  | (domain, true) =>
      let domainName := safeString (jget domain (gs "name"))
      match safeMap (jget domain (gs "users")) with
      | (_, false) => []
      | (usersData, true) =>
          match safeSlice (jget usersData (gs "users")) with
          | (_, false) => []
          | (usersList, true) =>
              usersList.filterMap (fun u =>
                match safeMap u with
                | (_, false) => none
                | (user, true) => some
                    { ID := safeString (jget user (gs "id"))
                      Name := safeString (jget user (gs "name"))
                      Email := safeString (jget user (gs "email"))
                      TypeStr := userTypeOfJ user
                      Groups := []
                      AuthenticationDomain := domainName })

/-- `ListUsers` (api/users.go), response-mapping part: five named levels
(`actor.organization.userManagement.authenticationDomains.authenticationDomains`),
then a flatten of the per-domain user lists. -/
def ListUsersMap (result : JObj) : Except GoError (List User) :=
  match safeMap (jget result (gs "actor")) with
  | (_, false) =>
      .error (.respError (gs "unexpected response format: missing actor"))
  | (actor, true) =>
  match safeMap (jget actor (gs "organization")) with
  | (_, false) =>
      .error (.respError (gs "unexpected response format: missing organization"))
  | (org, true) =>
  match safeMap (jget org (gs "userManagement")) with
  | (_, false) =>
      .error (.respError (gs "unexpected response format: missing userManagement"))
  | (userMgmt, true) =>
  match safeMap (jget userMgmt (gs "authenticationDomains")) with
  | (_, false) =>
      .error (.respError
        (gs "unexpected response format: missing authenticationDomains"))
  | (authDomains, true) =>
  match safeSlice (jget authDomains (gs "authenticationDomains")) with
  | (_, false) =>
      .error (.respError (gs "unexpected response format: missing domains list"))
  | (domains, true) =>
      .ok (domains.flatMap usersOfDomainJ)

/-- The `groups` list of a matched user in `GetUser`. -/
def userGroupsOfJ (user : JObj) : List GoStr :=
  match safeMap (jget user (gs "groups")) with
  | (_, false) => []
  | (g, true) =>
      match safeSlice (jget g (gs "groups")) with
      | (_, false) => []
      | (groupsList, true) =>
          groupsList.filterMap (fun grp =>
            match safeMap grp with
            | (_, false) => none
            | (group, true) => some (safeString (jget group (gs "displayName"))))

/-- The first user with matching id in one domain's user list
(`GetUser` inner loop). -/
def findUserInList (domainName : GoStr) (userID : GoStr) :
    List JValue → Option User
  | [] => none
  | u :: rest =>
      match safeMap u with
      | (_, false) => findUserInList domainName userID rest
      | (user, true) =>
          if safeString (jget user (gs "id")) = userID then
            some { ID := safeString (jget user (gs "id"))
                   Name := safeString (jget user (gs "name"))
                   Email := safeString (jget user (gs "email"))
                   TypeStr := userTypeOfJ user
                   Groups := userGroupsOfJ user
                   AuthenticationDomain := domainName }
          else findUserInList domainName userID rest

/-- The first matching user across the domains list (`GetUser` outer
loop; malformed levels are skipped via `continue`). -/
def findUserInDomains (userID : GoStr) : List JValue → Option User
  | [] => none
  | d :: rest =>
      match safeMap d with
      | (_, false) => findUserInDomains userID rest
      | (domain, true) =>
          let domainName := safeString (jget domain (gs "name"))
          match safeMap (jget domain (gs "users")) with
          | (_, false) => findUserInDomains userID rest
          | (usersData, true) =>
              match safeSlice (jget usersData (gs "users")) with
              | (_, false) => findUserInDomains userID rest
              | (usersList, true) =>
                  match findUserInList domainName userID usersList with
                  | some u => some u
                  | none => findUserInDomains userID rest

/-- `GetUser` (api/users.go), response-mapping part.  Unlike `ListUsers`
and `SearchEntities`, every shape check fails with the same generic
message "unexpected response format" (no key name). -/
def GetUserMap (result : JObj) (userID : GoStr) : Except GoError User :=
  match safeMap (jget result (gs "actor")) with
  | (_, false) => .error (.respError (gs "unexpected response format"))
  | (actor, true) =>
  match safeMap (jget actor (gs "organization")) with
  | (_, false) => .error (.respError (gs "unexpected response format"))
  | (org, true) =>
  match safeMap (jget org (gs "userManagement")) with
  | (_, false) => .error (.respError (gs "unexpected response format"))
  | (userMgmt, true) =>
  match safeMap (jget userMgmt (gs "authenticationDomains")) with
  | (_, false) => .error (.respError (gs "unexpected response format"))
  | (authDomains, true) =>
  match safeSlice (jget authDomains (gs "authenticationDomains")) with
  | (_, false) => .error (.respError (gs "unexpected response format"))
  | (domains, true) =>
      match findUserInDomains userID domains with
      | some u => .ok u
      | none => .error (.other (gs "user not found"))

/-! ## Log parsing rules (api/logs.go) -/

/-- `LogParsingRule` (api/types.go). -/
structure LogParsingRule where
  ID : GoStr
  Description : GoStr
  Enabled : Bool
  Grok : GoStr
  Lucene : GoStr
  NRQL : GoStr
  UpdatedAt : GoStr
deriving DecidableEq

/-- The rule built from a rules-list element (`ListLogParsingRules` loop
body).  `rule["enabled"] == true` is Go interface equality with `true`. -/
def logRuleOfJ (rule : JObj) : LogParsingRule :=
  { ID := safeString (jget rule (gs "id"))
    Description := safeString (jget rule (gs "description"))
    Enabled := (match jget rule (gs "enabled") with
                | .jbool true => true
                | _ => false)
    Grok := safeString (jget rule (gs "grok"))
    Lucene := safeString (jget rule (gs "lucene"))
    NRQL := safeString (jget rule (gs "nrql"))
    UpdatedAt := safeString (jget rule (gs "updatedAt")) }

/-- One rules-list element as kept by `ListLogParsingRules`: skipped when
not an object (`continue`) or when flagged `deleted` (the
`rule["deleted"].(bool)` type assertion succeeds with value `true`). -/
def keptRuleOfJ (r : JValue) : Option LogParsingRule :=
  match safeMap r with
  | (_, false) => none
  | (rule, true) =>
      match jget rule (gs "deleted") with
      | .jbool true => none
      | _ => some (logRuleOfJ rule)

/-- `ListLogParsingRules` (api/logs.go), response-mapping part: walks
`actor.account.logConfigurations.parsingRules` with a named error at each
level, then keeps the non-deleted object elements. -/
def ListLogParsingRulesMap (result : JObj) :
    Except GoError (List LogParsingRule) :=
  match safeMap (jget result (gs "actor")) with
  | (_, false) =>
      .error (.respError (gs "unexpected response format: missing actor"))
  | (actor, true) =>
  match safeMap (jget actor (gs "account")) with
  | (_, false) =>
      .error (.respError (gs "unexpected response format: missing account"))
  | (account, true) =>
  match safeMap (jget account (gs "logConfigurations")) with
  | (_, false) =>
      .error (.respError
        (gs "unexpected response format: missing logConfigurations"))
  | (logConfigs, true) =>
  match safeSlice (jget logConfigs (gs "parsingRules")) with
  | (_, false) =>
      .error (.respError (gs "unexpected response format: missing parsingRules"))
  | (rulesData, true) =>
      .ok (rulesData.filterMap keptRuleOfJ)

/-- `GetLogParsingRule` (api/logs.go): reads through the filtered list and
returns the first rule with matching ID. -/
def GetLogParsingRuleMap (result : JObj) (ruleID : GoStr) :
    Except GoError LogParsingRule :=
  match ListLogParsingRulesMap result with
  | .error e => .error e
  | .ok rules =>
      match rules.find? (fun r => r.ID = ruleID) with
      | some r => .ok r
      | none => .error (.ruleNotFound ruleID)

/-- `LogParsingRuleUpdate` (api/logs.go): optional fields; only non-nil
values are applied. -/
structure LogParsingRuleUpdate where
  Description : Option GoStr
  Enabled : Option Bool
  Grok : Option GoStr
  Lucene : Option GoStr
  NRQL : Option GoStr

/-- `UpdateLogParsingRule` (api/logs.go): fetches the existing rule via
`GetLogParsingRule` (first round-trip response `result`), merges the
update, and maps the mutation response (second round-trip response
`mutResult`, `logConfigurationsUpdateParsingRule`). -/
def UpdateLogParsingRuleMap (result : JObj) (mutResult : JObj)
    (ruleID : GoStr) (update : LogParsingRuleUpdate) :
    Except GoError LogParsingRule :=
  match GetLogParsingRuleMap result ruleID with
  | .error e => .error e
  | .ok existing =>
      let _description := update.Description.getD existing.Description
      let _enabled := update.Enabled.getD existing.Enabled
      let _grok := update.Grok.getD existing.Grok
      let _lucene := update.Lucene.getD existing.Lucene
      let _nrql := update.NRQL.getD existing.NRQL
      match safeMap (jget mutResult (gs "logConfigurationsUpdateParsingRule")) with
      | (_, false) => .error (.respError (gs "unexpected response format"))
      | (updateResult, true) =>
          match safeSlice (jget updateResult (gs "errors")) with
          | (errs, true) =>
              if errs.length > 0 then
                .error (.other (gs "failed to update rule: " ++
                  safeString (jget (safeMap (errs.headD .jnull)).1 (gs "message"))))
              else
                match safeMap (jget updateResult (gs "rule")) with
                | (_, false) =>
                    .error (.respError (gs "unexpected response format: missing rule"))
                | (rule, true) => .ok (logRuleOfJ rule)
          | (_, false) =>
              match safeMap (jget updateResult (gs "rule")) with
              | (_, false) =>
                  .error (.respError (gs "unexpected response format: missing rule"))
              | (rule, true) => .ok (logRuleOfJ rule)

/-! ## strconv.Atoi (model of the Go standard library, 64-bit int)

`Atoi` returns a pair (value, error).  On a syntax error the value is 0; on
range overflow it is the clamped extremum (`math.MaxInt64` / `MinInt64`)
together with a range error — callers that discard the error therefore see
the clamped value, not 0. -/

inductive AtoiErr where
  | badInput : AtoiErr
  | outOfRange : AtoiErr
deriving DecidableEq

/-- Numeric value of a digit list (`0`-`9` bytes). -/
def digitsVal (ds : GoStr) : Nat := ds.foldl (fun a c => a * 10 + (c - 48)) 0

/-- Model of Go `strconv.Atoi` on a 64-bit platform: optional sign, then
base-10 digits; value clamped to the int64 range on overflow. -/
def goAtoi (s : GoStr) : Int × Option AtoiErr :=
  match s with
  | [] => (0, some .badInput)
  | c :: r =>
      let neg : Bool := c = 45
      let ds : GoStr := if c = 43 ∨ c = 45 then r else c :: r
      if ds = [] then (0, some .badInput)
      else if ¬ ds.all (fun d => 48 ≤ d && d ≤ 57) then (0, some .badInput)
      else
        let v := digitsVal ds
        if neg then
          if v ≤ 2 ^ 63 then (-(v : Int), none)
          else (-(2 ^ 63 : Int), some .outOfRange)
        else
          if v ≤ 2 ^ 63 - 1 then ((v : Int), none)
          else ((2 ^ 63 - 1 : Int), some .outOfRange)

/-! ## internal/validate/validate.go and client.go account ID -/

/-- The three `AccountID` validation failures with their message text
(internal/validate/validate.go). -/
inductive AccountIDErr where
  /-- "account ID cannot be empty". -/
  | emptyID : AccountIDErr
  /-- "invalid account ID %q: must be numeric". -/
  | notNumericID (id : GoStr) : AccountIDErr
  /-- "invalid account ID %q: must be a positive number". -/
  | notPositiveID (id : GoStr) : AccountIDErr
deriving DecidableEq

/-- The user-visible message of each validation failure (Go `%q` renders
the id in double quotes; escaping does not occur for the byte values the
claims touch). -/
def accountIDErrMsg : AccountIDErr → GoStr
  | .emptyID => gs "account ID cannot be empty"
  | .notNumericID id => gs "invalid account ID " ++ [34] ++ id ++ [34] ++
      gs ": must be numeric"
  | .notPositiveID id => gs "invalid account ID " ++ [34] ++ id ++ [34] ++
      gs ": must be a positive number"

/-- `validate.AccountID` (internal/validate/validate.go): `none` = valid. -/
def validateAccountID (id : GoStr) : Option AccountIDErr :=
  if id = [] then some .emptyID
  else
    match goAtoi id with
    | (_, some _) => some (.notNumericID id)
    | (num, none) => if num ≤ 0 then some (.notPositiveID id) else none

/-- `Client.GetAccountIDInt` (api/client.go): requires a configured
account ID, then converts with `strconv.Atoi`. -/
def GetAccountIDInt (accountID : GoStr) : Except GoError Int :=
  if accountID = [] then .error .accountIDRequired
  else
    match goAtoi accountID with
    | (_, some _) => .error (.invalidAccountID accountID)
    | (id, none) => .ok id

/-! ## Time (model of the Go `time` package, UTC)

`time.Time` is embedded as a civil day count since 1970-01-01 plus the
nanosecond of day, on an unbounded timeline (Go's internal 64-bit second
count overflows only at astronomical years, outside every claim's scope).
Civil conversions are the standard proleptic-Gregorian algorithms;
`AddDate` re-derives the civil date, adds the deltas and renormalizes, as
Go's `Date` does.  All `time.Duration` arithmetic wraps at 64 bits. -/

/-- Civil (year, month, day) of a day number (days since 1970-01-01). -/
def civilFromDays (z : Int) : Int × Int × Int :=
  let zd := z + 719468
  let era := zd / 146097
  let doe := zd % 146097
  let yoe := (doe - doe / 1460 + doe / 36524 - doe / 146096) / 365
  let y := yoe + era * 400
  let doy := doe - (365 * yoe + yoe / 4 - yoe / 100)
  let mp := (5 * doy + 2) / 153
  let d := doy - (153 * mp + 2) / 5 + 1
  let m := mp + (if mp < 10 then 3 else -9)
  (y + (if m ≤ 2 then 1 else 0), m, d)

/-- Day number of a civil (year, month, day); affine in `d`, which is how
out-of-range days normalize (as in Go's `Date`). -/
def daysFromCivil (y m d : Int) : Int :=
  let yy := y - (if m ≤ 2 then 1 else 0)
  let era := yy / 400
  let yoe := yy - era * 400
  let doy := (153 * (m + (if m > 2 then -3 else 9)) + 2) / 5 + d - 1
  let doe := yoe * 365 + yoe / 4 - yoe / 100 + doy
  era * 146097 + doe - 719468

theorem doy_bounds (doe : Int) (h1 : 0 ≤ doe) (h2 : doe ≤ 146096) :
    0 ≤ doe - (365 * ((doe - doe/1460 + doe/36524 - doe/146096) / 365)
               + ((doe - doe/1460 + doe/36524 - doe/146096) / 365)/4
               - ((doe - doe/1460 + doe/36524 - doe/146096) / 365)/100) ∧
    doe - (365 * ((doe - doe/1460 + doe/36524 - doe/146096) / 365)
               + ((doe - doe/1460 + doe/36524 - doe/146096) / 365)/4
               - ((doe - doe/1460 + doe/36524 - doe/146096) / 365)/100) ≤ 366 := by
  rcases le_or_lt doe 1459 with hr | hr
  · omega
  rcases le_or_lt doe 36523 with hr2 | hr2
  · have hf : doe / 36524 = 0 := by omega
    have hg : doe / 146096 = 0 := by omega
    rw [hf, hg]
    set e := doe / 1460 with he
    have he1 : 1460 * e ≤ doe ∧ doe < 1460 * (e + 1) := by omega
    have he2 : 1 ≤ e ∧ e ≤ 25 := by omega
    set b := (doe - e + 0 - 0) / 365 with hb
    have hb1 : 365 * b ≤ doe - e ∧ doe - e < 365 * (b + 1) := by omega
    have hc : b / 4 ≤ e ∧ e ≤ b / 4 + 1 := by omega
    have hd : b / 100 ≤ 1 := by omega
    omega
  rcases le_or_lt doe 146095 with hr3 | hr3
  · have hg : doe / 146096 = 0 := by omega
    rw [hg]
    set e := doe / 1460 with he
    set f := doe / 36524 with hf
    have he1 : 1460 * e ≤ doe ∧ doe < 1460 * (e + 1) := by omega
    have hf1 : 36524 * f ≤ doe ∧ doe < 36524 * (f + 1) := by omega
    have he2 : 25 ≤ e ∧ e ≤ 100 := by omega
    have hf2 : 1 ≤ f ∧ f ≤ 3 := by omega
    set b := (doe - e + f - 0) / 365 with hb
    have hb1 : 365 * b ≤ doe - e + f ∧ doe - e + f < 365 * (b + 1) := by omega
    have hc : b / 4 ≤ e ∧ e ≤ b / 4 + 1 := by omega
    have hd : b / 100 ≤ f ∧ f ≤ b / 100 + 1 := by omega
    omega
  · omega

theorem yoe_bounds (doe : Int) (h1 : 0 ≤ doe) (h2 : doe ≤ 146096) :
    0 ≤ (doe - doe/1460 + doe/36524 - doe/146096) / 365 ∧
    (doe - doe/1460 + doe/36524 - doe/146096) / 365 ≤ 399 := by
  omega

theorem civil_rt_core (doe era yoe doy mp d m : Int)
    (hyoe : yoe = (doe - doe/1460 + doe/36524 - doe/146096) / 365)
    (hyb : 0 ≤ yoe ∧ yoe ≤ 399)
    (hdoy : doy = doe - (365*yoe + yoe/4 - yoe/100))
    (hdb : 0 ≤ doy ∧ doy ≤ 366)
    (hmp : mp = (5*doy + 2)/153)
    (hd : d = doy - (153*mp+2)/5 + 1)
    (hm : m = mp + (if mp < 10 then 3 else -9)) :
    daysFromCivil (yoe + era * 400 + (if m ≤ 2 then 1 else 0)) m d
      = era * 146097 + doe - 719468 := by
  simp only [daysFromCivil]
  have hmpb : 0 ≤ mp ∧ mp ≤ 11 := by omega
  have hmif : (if m ≤ 2 then (1:Int) else 0) = if mp < 10 then 0 else 1 := by
    rcases hmpb with ⟨hmp0, hmp11⟩
    split <;> split <;> omega
  have hmarg : m + (if m > 2 then (-3:Int) else 9) = mp := by
    split <;> omega
  rw [hmif, hmarg]
  have hyoe2 : yoe + era * 400 + (if mp < 10 then (0:Int) else 1)
      - (if mp < 10 then (0:Int) else 1) = yoe + era * 400 := by omega
  rw [hyoe2]
  have hera : (yoe + era * 400) / 400 = era := by omega
  rw [hera]
  have hcancel : yoe + era * 400 - era * 400 = yoe := by ring
  rw [hcancel]
  omega

theorem civil_rt (z : Int) :
    daysFromCivil (civilFromDays z).1 (civilFromDays z).2.1
      (civilFromDays z).2.2 = z := by
  have hdoe1 : 0 ≤ (z + 719468) % 146097 := Int.emod_nonneg _ (by norm_num)
  have hdoe2 : (z + 719468) % 146097 ≤ 146096 := by omega
  have hcore := civil_rt_core ((z + 719468) % 146097) ((z + 719468) / 146097)
    _ _ _ _ _ rfl (yoe_bounds _ hdoe1 hdoe2) rfl (doy_bounds _ hdoe1 hdoe2)
    rfl rfl rfl
  simp only [civilFromDays]
  rw [hcore]
  omega

theorem civil_month_bounds (z : Int) :
    1 ≤ (civilFromDays z).2.1 ∧ (civilFromDays z).2.1 ≤ 12 := by
  have hdoe1 : 0 ≤ (z + 719468) % 146097 := Int.emod_nonneg _ (by norm_num)
  have hdoe2 : (z + 719468) % 146097 ≤ 146096 := by omega
  have hd := doy_bounds _ hdoe1 hdoe2
  simp only [civilFromDays]
  omega

theorem daysFromCivil_add_d (y m d k : Int) :
    daysFromCivil y m (d + k) = daysFromCivil y m d + k := by
  simp only [daysFromCivil]
  omega

/-- A `time.Time` instant: civil day count since 1970-01-01 (UTC) and
nanosecond of day. -/
structure GoTime where
  days : Int
  nsec : Int
deriving DecidableEq

def nsPerDay : Int := 86400000000000

/-- Position of an instant on the absolute nanosecond timeline. -/
def toNs (t : GoTime) : Int := t.days * nsPerDay + t.nsec

/-- `t.Add(d)` for a duration of `d` nanoseconds. -/
def timeAdd (t : GoTime) (d : Int) : GoTime :=
  let total := toNs t + d
  ⟨total / nsPerDay, total % nsPerDay⟩

/-- `time.Date(y, m, d, ...)`: the month is normalized into the year
(floor), then the possibly out-of-range day is absorbed by the affine
day-number conversion — exactly Go's normalization (Oct 32 = Nov 1). -/
def timeDate (y m d ns : Int) : GoTime :=
  ⟨daysFromCivil (y + (m - 1) / 12) ((m - 1) % 12 + 1) d, ns⟩

/-- `t.AddDate(years, months, days)`. -/
def addDate (t : GoTime) (years months days : Int) : GoTime :=
  let c := civilFromDays t.days
  timeDate (c.1 + years) (c.2.1 + months) (c.2.2 + days) t.nsec

/-- Midnight of the civil date of `t` (the `time.Date(y, m, d, 0, 0, 0, 0)`
pattern used for "today"/"yesterday"). -/
def dateOnly (t : GoTime) : GoTime :=
  let c := civilFromDays t.days
  timeDate c.1 c.2.1 c.2.2 0

/-- Two's-complement wrap-around of 64-bit Go integer arithmetic. -/
def wrap64 (x : Int) : Int := (x + 2 ^ 63) % 2 ^ 64 - 2 ^ 63

theorem wrap64_eq_self (x : Int) (h1 : -(2 ^ 63) ≤ x) (h2 : x ≤ 2 ^ 63 - 1) :
    wrap64 x = x := by
  simp only [wrap64]
  omega

theorem toNs_timeAdd (t : GoTime) (d : Int) :
    toNs (timeAdd t d) = toNs t + d := by
  simp only [timeAdd, toNs, nsPerDay]
  omega

theorem timeDate_month_norm (y m d ns : Int) (h1 : 1 ≤ m) (h2 : m ≤ 12) :
    timeDate y m d ns = ⟨daysFromCivil y m d, ns⟩ := by
  simp only [timeDate]
  have e1 : y + (m - 1) / 12 = y := by omega
  have e2 : (m - 1) % 12 + 1 = m := by omega
  rw [e1, e2]

theorem addDate_days (t : GoTime) (k : Int) :
    addDate t 0 0 k = ⟨t.days + k, t.nsec⟩ := by
  have hm := civil_month_bounds t.days
  have hrt := civil_rt t.days
  simp only [addDate, add_zero]
  rw [timeDate_month_norm _ _ _ _ hm.1 hm.2]
  rw [daysFromCivil_add_d, hrt]

/-! ## Flexible time parsing (timeparse.go) -/

/-- Whitespace for Go `strings.TrimSpace` (ASCII fragment). -/
def isSpaceByte (c : Nat) : Bool :=
  c = 32 || c = 9 || c = 10 || c = 11 || c = 12 || c = 13

/-- Whitespace of the RE2 character class `\s` (no vertical tab). -/
def reSpaceByte (c : Nat) : Bool :=
  c = 9 || c = 10 || c = 12 || c = 13 || c = 32

def isDigitByte (c : Nat) : Bool := 48 ≤ c && c ≤ 57

/-- Model of Go `strings.TrimSpace` for ASCII input. -/
def goTrimSpace (s : GoStr) : GoStr :=
  ((s.dropWhile isSpaceByte).reverse.dropWhile isSpaceByte).reverse

/-- Model of Go `strings.ToLower` for ASCII input. -/
def goToLower (s : GoStr) : GoStr :=
  s.map (fun c => if 65 ≤ c ∧ c ≤ 90 then c + 32 else c)

/-- The unit words of `relativeTimePattern`
(`^(\d+)\s+(second|minute|hour|day|week|month|year)s?\s+ago$`). -/
def reUnits : List GoStr :=
  [gs "second", gs "minute", gs "hour", gs "day", gs "week", gs "month",
   gs "year"]

/-- The first unit word that is a leading part of `s`, with the rest of
`s` (the unit words are pairwise non-overlapping, so the anchored match is
unambiguous). -/
def findUnit (s : GoStr) : Option (GoStr × GoStr) :=
  match reUnits.find? (fun u => u.isPrefixOf s) with
  | some u => some (u, s.drop u.length)
  | none => none

/-- The part of `relativeTimePattern` after the digit group: one or more
spaces, a unit word, an optional `s`, one or more spaces, `ago`, end. -/
def matchRelTail (digits r1 : GoStr) : Option (GoStr × GoStr) :=
  if digits = [] then none
  else
    let sp1 := r1.takeWhile reSpaceByte
    let r2 := r1.dropWhile reSpaceByte
    if sp1 = [] then none
    else
      match findUnit r2 with
      | none => none
      | some (u, r3) =>
          let r4 := match r3 with
                    | 115 :: t => t
                    | t => t
          let sp2 := r4.takeWhile reSpaceByte
          let r5 := r4.dropWhile reSpaceByte
          if sp2 = [] then none
          else if r5 = gs "ago" then some (digits, u) else none

/-- Model of `relativeTimePattern.FindStringSubmatch`: `some` holds the
two capture groups (digits, unit word). -/
def matchRelativeTime (s : GoStr) : Option (GoStr × GoStr) :=
  matchRelTail (s.takeWhile isDigitByte) (s.dropWhile isDigitByte)

/-- `parseRelativeTime` (timeparse.go).  `-time.Duration(amount) * unit`
is 64-bit Go arithmetic, hence the wraps. -/
def parseRelativeTime (now : GoTime) (amount : Int) (unit : GoStr) :
    Except GoError GoTime :=
  if unit = gs "second" then
    .ok (timeAdd now (wrap64 (wrap64 (-amount) * 1000000000)))
  else if unit = gs "minute" then
    .ok (timeAdd now (wrap64 (wrap64 (-amount) * 60000000000)))
  else if unit = gs "hour" then
    .ok (timeAdd now (wrap64 (wrap64 (-amount) * 3600000000000)))
  else if unit = gs "day" then
    .ok (addDate now 0 0 (wrap64 (-amount)))
  else if unit = gs "week" then
    .ok (addDate now 0 0 (wrap64 (wrap64 (-amount) * 7)))
  else if unit = gs "month" then
    .ok (addDate now 0 (wrap64 (-amount)) 0)
  else if unit = gs "year" then
    .ok (addDate now (wrap64 (-amount)) 0 0)
  else .error (.other (gs "unknown time unit: " ++ unit))

/-- `ParseFlexibleTime` (timeparse.go).  The evaluation instant
(`time.Now()`) is the argument `now`; the final loop over the eight
absolute `timeFormats` is abstracted as `parseFormats` (it is reached only
after keyword and relative matching fail). -/
def ParseFlexibleTime (parseFormats : GoStr → Option GoTime) (now : GoTime)
    (s : GoStr) : Except GoError GoTime :=
  let original := goTrimSpace s
  let lower := goToLower original
  if original = [] then .error (.other (gs "empty time string"))
  else if lower = gs "now" then .ok now
  else if lower = gs "today" then .ok (dateOnly now)
  else if lower = gs "yesterday" then .ok (dateOnly (addDate now 0 0 (-1)))
  else
    match matchRelativeTime lower with
    | some (digits, unit) =>
        let amount := (goAtoi digits).1
        parseRelativeTime now amount unit
    | none =>
        match parseFormats original with
        | some t => .ok t
        | none => .error (.other (gs "unable to parse time: " ++ original))

/-! ## Deployment time filtering (timeparse.go)

`FilterDeploymentsByTime` compares `time.Time` values only by order and
zero-ness, so instants are embedded as integers on the absolute
(nanosecond) timeline; the zero `time.Time` (January 1, year 1 UTC) is the
distinguished value `goZeroTime`.  `ParseDeploymentTimestamp` (the loop
over `timeFormats`) is abstracted as the argument `parseTS`, `none`
modelling its parse failure. -/

/-- `Deployment` (api/types.go). -/
structure Deployment where
  ID : Int
  Revision : GoStr
  Description : GoStr
  User : GoStr
  Timestamp : GoStr
deriving DecidableEq

/-- The zero `time.Time` on the timeline (midnight, January 1, year 1). -/
def goZeroTime : Int := daysFromCivil 1 1 1 * nsPerDay

/-- `t.IsZero()`. -/
def timeIsZero (x : Int) : Bool := x = goZeroTime

/-- `FilterDeploymentsByTime` (timeparse.go). -/
def FilterDeploymentsByTime (parseTS : GoStr → Option Int)
    (deployments : List Deployment) (since untl : Int) : List Deployment :=
  if timeIsZero since && timeIsZero untl then deployments
  else
    deployments.filter (fun d =>
      match parseTS d.Timestamp with
      | none => true
      | some ts =>
          if !timeIsZero since && decide (ts < since) then false
          else if !timeIsZero untl && decide (untl < ts) then false
          else true)

/-! # Claim theorems -/

deriving instance DecidableEq for Except

/-- C7: the safe tree accessors are total and never panic: `safeMap` and
`safeSlice` return the zero value paired with `false` on every
non-object / non-list input (and the payload with `true` otherwise),
`safeString` returns the empty string on every non-string input, and
`safeInt` truncates a number toward zero and returns 0 on every
non-numeric input. -/
theorem safe_accessors_total (v : JValue) :
    ((∀ m, v ≠ .jobj m) → safeMap v = ([], false)) ∧
    (∀ m, v = .jobj m → safeMap v = (m, true)) ∧
    ((∀ xs, v ≠ .jarr xs) → safeSlice v = ([], false)) ∧
    (∀ xs, v = .jarr xs → safeSlice v = (xs, true)) ∧
    ((∀ s, v ≠ .jstr s) → safeString v = []) ∧
    ((∀ q, v ≠ .jnum q) → safeInt v = 0) ∧
    (∀ q, v = .jnum q → safeInt v = ratTrunc q) := by
  cases v <;> simp [safeMap, safeSlice, safeString, safeInt]

theorem safe_accessors_total_witness :
    safeMap (JValue.jstr (gs "x")) = ([], false) ∧
    safeSlice JValue.jnull = ([], false) ∧
    safeString (JValue.jbool true) = [] ∧
    safeInt (JValue.jstr (gs "x")) = 0 ∧
    safeInt (JValue.jnum (7 / 2)) = ratTrunc (7 / 2) := by
  refine ⟨(safe_accessors_total _).1 (by intro m h; cases h),
    (safe_accessors_total _).2.2.1 (by intro xs h; cases h),
    (safe_accessors_total _).2.2.2.2.1 (by intro s h; cases h),
    (safe_accessors_total _).2.2.2.2.2.1 (by intro q h; cases h),
    (safe_accessors_total _).2.2.2.2.2.2 _ rfl⟩

/-- C9: account ID validation: "0" (and every non-positive integer
string) fails because the value must be strictly positive; "12345"
passes and converts to the integer 12345; and the three failure modes
(empty, non-numeric, non-positive) carry pairwise different messages. -/
theorem accountID_validation :
    validateAccountID (gs "0") = some (.notPositiveID (gs "0")) ∧
    (∀ s n, s ≠ [] → goAtoi s = (n, none) → n ≤ 0 →
        validateAccountID s = some (.notPositiveID s)) ∧
    validateAccountID (gs "12345") = none ∧
    GetAccountIDInt (gs "12345") = .ok 12345 ∧
    validateAccountID [] = some .emptyID ∧
    (∀ s e, s ≠ [] → (goAtoi s).2 = some e →
        validateAccountID s = some (.notNumericID s)) ∧
    (∀ id1 id2 : GoStr,
      accountIDErrMsg .emptyID ≠ accountIDErrMsg (.notNumericID id1) ∧
      accountIDErrMsg .emptyID ≠ accountIDErrMsg (.notPositiveID id1) ∧
      accountIDErrMsg (.notNumericID id1) ≠
        accountIDErrMsg (.notPositiveID id2)) := by
  refine ⟨by decide, ?_, by decide, by decide, by decide, ?_, ?_⟩
  · intro s n hne hatoi hle
    unfold validateAccountID
    rw [if_neg hne, hatoi]
    simp only [if_pos hle]
  · intro s e hne h2
    unfold validateAccountID
    rw [if_neg hne]
    rcases h : goAtoi s with ⟨n, oe⟩
    rw [h] at h2
    simp only at h2
    rw [h2]
  · intro id1 id2
    refine ⟨?_, ?_, ?_⟩
    · intro heq
      simp only [accountIDErrMsg] at heq
      have hlast := congrArg (List.getLast? (α := Nat)) heq
      rw [List.getLast?_append_of_ne_nil _ (by decide)] at hlast
      exact absurd hlast (by decide)
    · intro heq
      simp only [accountIDErrMsg] at heq
      have hlast := congrArg (List.getLast? (α := Nat)) heq
      rw [List.getLast?_append_of_ne_nil _ (by decide)] at hlast
      exact absurd hlast (by decide)
    · intro heq
      simp only [accountIDErrMsg] at heq
      have hlast := congrArg (List.getLast? (α := Nat)) heq
      rw [List.getLast?_append_of_ne_nil _ (by decide),
          List.getLast?_append_of_ne_nil _ (by decide)] at hlast
      exact absurd hlast (by decide)

theorem accountID_validation_witness :
    validateAccountID (gs "-7") = some (.notPositiveID (gs "-7")) ∧
    validateAccountID (gs "abc") = some (.notNumericID (gs "abc")) := by
  refine ⟨(accountID_validation).2.1 (gs "-7") (-7) (by decide) (by decide)
      (by decide),
    (accountID_validation).2.2.2.2.2.1 (gs "abc") .badInput (by decide)
      (by decide)⟩

/-- C4: GUID codec round-trip and failure characterization: encoding
`part1|part2|part3|part4` (no part containing the pipe byte) in base64
and applying `ParseGUID` recovers the four parts exactly; `ParseGUID`
fails with the base64 error exactly on invalid base64, with the
part-count error exactly when the decoded payload does not split into 4
parts, and succeeds otherwise — never partial data. -/
theorem guid_codec_spec :
    (∀ p1 p2 p3 p4 : GoStr,
      (∀ b ∈ p1 ++ p2 ++ p3 ++ p4, b < 256) →
      124 ∉ p1 → 124 ∉ p2 → 124 ∉ p3 → 124 ∉ p4 →
      ParseGUID (encodeB64 (p1 ++ 124 :: (p2 ++ 124 :: (p3 ++ 124 :: p4)))) =
        .ok (p1, p2, p3, p4)) ∧
    (∀ guid, decodeB64 guid = none →
      ParseGUID guid = .error .invalidBase64) ∧
    (∀ guid d, decodeB64 guid = some d → (splitOnByte 124 d).length ≠ 4 →
      ParseGUID guid = .error (.wrongPartCount (splitOnByte 124 d).length)) ∧
    (∀ guid d, decodeB64 guid = some d → (splitOnByte 124 d).length = 4 →
      ∃ parts, ParseGUID guid = .ok parts) := by
  refine ⟨?_, ?_, ?_, ?_⟩
  · intro p1 p2 p3 p4 hb h1 h2 h3 h4
    have hb2 := hb
    simp only [List.mem_append] at hb2
    have hbytes : ∀ b ∈ p1 ++ 124 :: (p2 ++ 124 :: (p3 ++ 124 :: p4)),
        b < 256 := by
      intro b hbm
      simp only [List.mem_append, List.mem_cons] at hbm
      rcases hbm with h | h | h | h | h | h | h
      · exact hb2 b (by tauto)
      · omega
      · exact hb2 b (by tauto)
      · omega
      · exact hb2 b (by tauto)
      · omega
      · exact hb2 b (by tauto)
    have hd := decode_encode _ hbytes
    have hsplit : splitOnByte 124 (p1 ++ 124 :: (p2 ++ 124 :: (p3 ++ 124 :: p4)))
        = [p1, p2, p3, p4] := by
      rw [splitOnByte_append _ _ _ h1, splitOnByte_append _ _ _ h2,
          splitOnByte_append _ _ _ h3, splitOnByte_no_sep _ _ h4]
    simp only [ParseGUID, hd, hsplit]
  · intro guid h
    simp only [ParseGUID, h]
  · intro guid d h hlen
    simp only [ParseGUID, h]
    rcases hs : splitOnByte 124 d with _ | ⟨a, _ | ⟨b, _ | ⟨c, _ | ⟨e, _ | ⟨f, t⟩⟩⟩⟩⟩ <;>
      rw [hs] at hlen <;> simp_all
  · intro guid d h hlen
    simp only [ParseGUID, h]
    rcases hs : splitOnByte 124 d with _ | ⟨a, _ | ⟨b, _ | ⟨c, _ | ⟨e, _ | ⟨f, t⟩⟩⟩⟩⟩ <;>
      rw [hs] at hlen <;> simp_all

theorem guid_codec_spec_witness :
    ParseGUID (encodeB64 (gs "123456" ++ 124 :: (gs "APM" ++ 124 ::
        (gs "APPLICATION" ++ 124 :: gs "987654")))) =
      .ok (gs "123456", gs "APM", gs "APPLICATION", gs "987654") ∧
    ParseGUID (gs "!!!!") = .error .invalidBase64 ∧
    ParseGUID (gs "QQ==") =
      .error (.wrongPartCount (splitOnByte 124 (gs "A")).length) := by
  refine ⟨guid_codec_spec.1 (gs "123456") (gs "APM") (gs "APPLICATION")
      (gs "987654") (by decide) (by decide) (by decide) (by decide)
      (by decide),
    guid_codec_spec.2.1 (gs "!!!!") (by decide),
    guid_codec_spec.2.2.1 (gs "QQ==") (gs "A") (by decide) (by decide)⟩

/-- C5: `ExtractAppIDFromGUID` returns the fourth decoded part exactly
when the GUID decodes and its domain is "APM" and its entity type is
"APPLICATION"; any other valid GUID yields the domain/type mismatch
error, and a decode failure propagates — a non-APM-application GUID
never yields an entity ID. -/
theorem extract_appid_spec (guid : GoStr) :
    (∀ acc dom typ idv, ParseGUID guid = .ok (acc, dom, typ, idv) →
      dom = gs "APM" → typ = gs "APPLICATION" →
      ExtractAppIDFromGUID guid = .ok idv) ∧
    (∀ acc dom typ idv, ParseGUID guid = .ok (acc, dom, typ, idv) →
      ¬(dom = gs "APM" ∧ typ = gs "APPLICATION") →
      ExtractAppIDFromGUID guid = .error (.notAPMApp dom typ)) ∧
    (∀ e, ParseGUID guid = .error e →
      ExtractAppIDFromGUID guid = .error e) ∧
    (∀ a, ExtractAppIDFromGUID guid = .ok a →
      ∃ acc, ParseGUID guid = .ok (acc, gs "APM", gs "APPLICATION", a)) := by
  refine ⟨?_, ?_, ?_, ?_⟩
  · intro acc dom typ idv h hdom htyp
    subst hdom htyp
    simp only [ExtractAppIDFromGUID, h]
    simp
  · intro acc dom typ idv h hne
    simp only [ExtractAppIDFromGUID, h]
    rw [if_pos (by tauto)]
  · intro e h
    simp only [ExtractAppIDFromGUID, h]
  · intro a h
    rcases hp : ParseGUID guid with e | ⟨acc, dom, typ, idv⟩
    · simp only [ExtractAppIDFromGUID, hp] at h
      cases h
    · simp only [ExtractAppIDFromGUID, hp] at h
      by_cases hc : dom ≠ gs "APM" ∨ typ ≠ gs "APPLICATION"
      · rw [if_pos hc] at h
        cases h
      · rw [if_neg hc] at h
        push_neg at hc
        simp only [Except.ok.injEq] at h
        exact ⟨acc, by rw [hc.1, hc.2, h]⟩

theorem extract_appid_spec_witness :
    ExtractAppIDFromGUID (encodeB64 (gs "1|APM|APPLICATION|42")) =
      .ok (gs "42") ∧
    ExtractAppIDFromGUID (encodeB64 (gs "1|BROWSER|APPLICATION|42")) =
      .error (.notAPMApp (gs "BROWSER") (gs "APPLICATION")) ∧
    ExtractAppIDFromGUID (gs "!!!!") = .error .invalidBase64 := by
  refine ⟨(extract_appid_spec _).1 (gs "1") (gs "APM") (gs "APPLICATION")
      (gs "42") (by decide) rfl rfl,
    (extract_appid_spec _).2.1 (gs "1") (gs "BROWSER") (gs "APPLICATION")
      (gs "42") (by decide) (by decide),
    (extract_appid_spec _).2.2.1 .invalidBase64 (by decide)⟩

/-- C1: `ResolveAppID` tries strategies in a fixed order: an all-digit
identifier is returned unchanged with no network call; a non-numeric
identifier passing the GUID heuristic whose extraction succeeds returns
the extracted ID with no network call; if the heuristic passes but
extraction fails it falls through to name search; on the name-search
path zero matches and multiple matches are errors (never a guessed
candidate), and exactly one match returns the ID extracted from that
entity's GUID, propagating (wrapped) any decode failure. -/
theorem resolve_appid_spec
    (search : GoStr → Except GoError (List Entity)) (identifier : GoStr) :
    (isNumeric identifier = true →
      ResolveAppID search identifier = (.ok identifier, false)) ∧
    (∀ appID, isNumeric identifier = false →
      looksLikeGUID identifier = true →
      ExtractAppIDFromGUID identifier = .ok appID →
      ResolveAppID search identifier = (.ok appID, false)) ∧
    (∀ e, isNumeric identifier = false → looksLikeGUID identifier = true →
      ExtractAppIDFromGUID identifier = .error e →
      ResolveAppID search identifier =
        (resolveAppName search identifier, true)) ∧
    (search (resolveQuery identifier) = .ok [] →
      resolveAppName search identifier = .error (.noAppFound identifier)) ∧
    (∀ e1 e2 rest, search (resolveQuery identifier) = .ok (e1 :: e2 :: rest) →
      resolveAppName search identifier =
        .error (.multipleApps identifier)) ∧
    (∀ ent, search (resolveQuery identifier) = .ok [ent] →
      ((∀ appID, ExtractAppIDFromGUID ent.GUID = .ok appID →
          resolveAppName search identifier = .ok appID) ∧
       (∀ e, ExtractAppIDFromGUID ent.GUID = .error e →
          resolveAppName search identifier =
            .error (.extractFailed e)))) := by
  refine ⟨?_, ?_, ?_, ?_, ?_, ?_⟩
  · intro h
    simp only [ResolveAppID, h, if_true]
  · intro appID hn hg he
    simp only [ResolveAppID, hn, hg, he, Bool.false_eq_true, if_false, if_true]
  · intro e hn hg he
    simp only [ResolveAppID, hn, hg, he, Bool.false_eq_true, if_false, if_true]
  · intro h
    simp only [resolveAppName, h]
  · intro e1 e2 rest h
    simp only [resolveAppName, h]
  · intro ent h
    constructor
    · intro appID he
      simp only [resolveAppName, h, he]
    · intro e he
      simp only [resolveAppName, h, he]

theorem resolve_appid_spec_witness :
    ResolveAppID (fun _ => .ok []) (gs "12345") = (.ok (gs "12345"), false) ∧
    ResolveAppID (fun _ => .ok [])
        (encodeB64 (gs "123456|APM|APPLICATION|987654")) =
      (.ok (gs "987654"), false) ∧
    ResolveAppID (fun _ => .ok [])
        (encodeB64 (gs "123456|BROWSER|APPLICATION|9876")) =
      (resolveAppName (fun _ => .ok [])
        (encodeB64 (gs "123456|BROWSER|APPLICATION|9876")), true) ∧
    resolveAppName (fun _ => .ok []) (gs "My App") =
      .error (.noAppFound (gs "My App")) ∧
    resolveAppName
        (fun _ => .ok [⟨gs "g1", gs "a", gs "t", gs "e", gs "d", 1⟩,
                       ⟨gs "g2", gs "a", gs "t", gs "e", gs "d", 1⟩])
        (gs "My App") =
      .error (.multipleApps (gs "My App")) ∧
    resolveAppName
        (fun _ => .ok [⟨encodeB64 (gs "1|APM|APPLICATION|42"), gs "a",
                        gs "t", gs "e", gs "d", 1⟩])
        (gs "My App") = .ok (gs "42") := by
  refine ⟨(resolve_appid_spec _ _).1 (by decide),
    (resolve_appid_spec _ _).2.1 (gs "987654") (by decide) (by decide)
      (by decide),
    (resolve_appid_spec _ _).2.2.1 (.notAPMApp (gs "BROWSER")
      (gs "APPLICATION")) (by decide) (by decide) (by decide),
    (resolve_appid_spec _ _).2.2.2.1 rfl,
    (resolve_appid_spec _ _).2.2.2.2.1 _ _ [] rfl,
    ((resolve_appid_spec _ _).2.2.2.2.2 _ rfl).1 (gs "42") (by decide)⟩

/-- C2 (amended): `SearchEntities` and `ListUsers` fail with a distinct
error naming the first missing key at each level of their response
walks; `GetUser`, however, fails with the same generic "unexpected
response format" message at every level, naming no key (and otherwise
only with "user not found"). -/
theorem mapper_error_naming (result : JObj) :
    ((safeMap (jget result (gs "actor"))).2 = false →
      SearchEntitiesMap result =
        .error (.respError (gs "unexpected response format: missing actor"))) ∧
    (∀ actor, safeMap (jget result (gs "actor")) = (actor, true) →
      (safeMap (jget actor (gs "entitySearch"))).2 = false →
      SearchEntitiesMap result =
        .error (.respError
          (gs "unexpected response format: missing entitySearch"))) ∧
    (∀ actor es, safeMap (jget result (gs "actor")) = (actor, true) →
      safeMap (jget actor (gs "entitySearch")) = (es, true) →
      (safeMap (jget es (gs "results"))).2 = false →
      SearchEntitiesMap result =
        .error (.respError (gs "unexpected response format: missing results"))) ∧
    (∀ actor es res, safeMap (jget result (gs "actor")) = (actor, true) →
      safeMap (jget actor (gs "entitySearch")) = (es, true) →
      safeMap (jget es (gs "results")) = (res, true) →
      (safeSlice (jget res (gs "entities"))).2 = false →
      SearchEntitiesMap result =
        .error (.respError (gs "unexpected response format: missing entities"))) ∧
    ((safeMap (jget result (gs "actor"))).2 = false →
      ListUsersMap result =
        .error (.respError (gs "unexpected response format: missing actor"))) ∧
    (∀ actor, safeMap (jget result (gs "actor")) = (actor, true) →
      (safeMap (jget actor (gs "organization"))).2 = false →
      ListUsersMap result =
        .error (.respError
          (gs "unexpected response format: missing organization"))) ∧
    (∀ actor org, safeMap (jget result (gs "actor")) = (actor, true) →
      safeMap (jget actor (gs "organization")) = (org, true) →
      (safeMap (jget org (gs "userManagement"))).2 = false →
      ListUsersMap result =
        .error (.respError
          (gs "unexpected response format: missing userManagement"))) ∧
    (∀ actor org um, safeMap (jget result (gs "actor")) = (actor, true) →
      safeMap (jget actor (gs "organization")) = (org, true) →
      safeMap (jget org (gs "userManagement")) = (um, true) →
      (safeMap (jget um (gs "authenticationDomains"))).2 = false →
      ListUsersMap result =
        .error (.respError
          (gs "unexpected response format: missing authenticationDomains"))) ∧
    (∀ actor org um ad, safeMap (jget result (gs "actor")) = (actor, true) →
      safeMap (jget actor (gs "organization")) = (org, true) →
      safeMap (jget org (gs "userManagement")) = (um, true) →
      safeMap (jget um (gs "authenticationDomains")) = (ad, true) →
      (safeSlice (jget ad (gs "authenticationDomains"))).2 = false →
      ListUsersMap result =
        .error (.respError
          (gs "unexpected response format: missing domains list"))) ∧
    (∀ uid e, GetUserMap result uid = .error e →
      e = .respError (gs "unexpected response format") ∨
      e = .other (gs "user not found")) := by
  refine ⟨?_, ?_, ?_, ?_, ?_, ?_, ?_, ?_, ?_, ?_⟩
  · intro h
    rcases hs : safeMap (jget result (gs "actor")) with ⟨m, b⟩
    rw [hs] at h
    simp only at h
    subst h
    simp only [SearchEntitiesMap, hs]
  · intro actor h1 h2
    rcases hs : safeMap (jget actor (gs "entitySearch")) with ⟨m, b⟩
    rw [hs] at h2
    simp only at h2
    subst h2
    simp only [SearchEntitiesMap, h1, hs]
  · intro actor es h1 h2 h3
    rcases hs : safeMap (jget es (gs "results")) with ⟨m, b⟩
    rw [hs] at h3
    simp only at h3
    subst h3
    simp only [SearchEntitiesMap, h1, h2, hs]
  · intro actor es res h1 h2 h3 h4
    rcases hs : safeSlice (jget res (gs "entities")) with ⟨m, b⟩
    rw [hs] at h4
    simp only at h4
    subst h4
    simp only [SearchEntitiesMap, h1, h2, h3, hs]
  · intro h
    rcases hs : safeMap (jget result (gs "actor")) with ⟨m, b⟩
    rw [hs] at h
    simp only at h
    subst h
    simp only [ListUsersMap, hs]
  · intro actor h1 h2
    rcases hs : safeMap (jget actor (gs "organization")) with ⟨m, b⟩
    rw [hs] at h2
    simp only at h2
    subst h2
    simp only [ListUsersMap, h1, hs]
  · intro actor org h1 h2 h3
    rcases hs : safeMap (jget org (gs "userManagement")) with ⟨m, b⟩
    rw [hs] at h3
    simp only at h3
    subst h3
    simp only [ListUsersMap, h1, h2, hs]
  · intro actor org um h1 h2 h3 h4
    rcases hs : safeMap (jget um (gs "authenticationDomains")) with ⟨m, b⟩
    rw [hs] at h4
    simp only at h4
    subst h4
    simp only [ListUsersMap, h1, h2, h3, hs]
  · intro actor org um ad h1 h2 h3 h4 h5
    rcases hs : safeSlice (jget ad (gs "authenticationDomains")) with ⟨m, b⟩
    rw [hs] at h5
    simp only at h5
    subst h5
    simp only [ListUsersMap, h1, h2, h3, h4, hs]
  · intro uid e h
    unfold GetUserMap at h
    rcases h1 : safeMap (jget result (gs "actor")) with ⟨m1, b1⟩
    rw [h1] at h
    cases b1 with
    | false => simp only at h; left; exact (Except.error.injEq _ _).mp h.symm ▸ rfl
    | true =>
    simp only at h
    rcases h2 : safeMap (jget m1 (gs "organization")) with ⟨m2, b2⟩
    rw [h2] at h
    cases b2 with
    | false => simp only at h; left; exact (Except.error.injEq _ _).mp h.symm ▸ rfl
    | true =>
    simp only at h
    rcases h3 : safeMap (jget m2 (gs "userManagement")) with ⟨m3, b3⟩
    rw [h3] at h
    cases b3 with
    | false => simp only at h; left; exact (Except.error.injEq _ _).mp h.symm ▸ rfl
    | true =>
    simp only at h
    rcases h4 : safeMap (jget m3 (gs "authenticationDomains")) with ⟨m4, b4⟩
    rw [h4] at h
    cases b4 with
    | false => simp only at h; left; exact (Except.error.injEq _ _).mp h.symm ▸ rfl
    | true =>
    simp only at h
    rcases h5 : safeSlice (jget m4 (gs "authenticationDomains")) with ⟨m5, b5⟩
    rw [h5] at h
    cases b5 with
    | false => simp only at h; left; exact (Except.error.injEq _ _).mp h.symm ▸ rfl
    | true =>
    simp only at h
    rcases h6 : findUserInDomains uid m5 with _ | u
    · rw [h6] at h
      simp only at h
      right
      exact ((Except.error.injEq _ _).mp h.symm) ▸ rfl
    · rw [h6] at h
      simp only at h
      exact Except.noConfusion h

/-- C2 counterexample: on a response missing `actor` at the top level,
`GetUser` fails with the generic "unexpected response format" — a message
that does not mention the missing key `actor` at all. -/
theorem mapper_error_naming_cex :
    GetUserMap [] (gs "user-1") =
      .error (.respError (gs "unexpected response format")) ∧
    ¬ (gs "actor" <:+: gs "unexpected response format") := by
  exact ⟨by decide, by decide⟩

theorem mapper_error_naming_witness :
    SearchEntitiesMap [] =
      .error (.respError (gs "unexpected response format: missing actor")) ∧
    SearchEntitiesMap [(gs "actor", .jobj [])] =
      .error (.respError
        (gs "unexpected response format: missing entitySearch")) ∧
    ListUsersMap [(gs "actor", .jobj [(gs "organization", .jobj [])])] =
      .error (.respError
        (gs "unexpected response format: missing userManagement")) ∧
    (GoError.respError (gs "unexpected response format") =
        .respError (gs "unexpected response format") ∨
      GoError.respError (gs "unexpected response format") =
        .other (gs "user not found")) := by
  refine ⟨(mapper_error_naming []).1 rfl,
    (mapper_error_naming _).2.1 [] rfl rfl,
    (mapper_error_naming _).2.2.2.2.2.2.1 [(gs "organization", .jobj [])] []
      rfl rfl rfl,
    (mapper_error_naming []).2.2.2.2.2.2.2.2.2 (gs "u") _ rfl⟩

/-- The `parsingRules` list position of a log-rules response (defined for
any response; meaningful when the walk succeeds). -/
def responseParsingRules (result : JObj) : List JValue :=
  (safeSlice (jget (safeMap (jget (safeMap (jget (safeMap
    (jget result (gs "actor"))).1 (gs "account"))).1
    (gs "logConfigurations"))).1 (gs "parsingRules"))).1

theorem listLogParsingRules_ok (result : JObj) (rules : List LogParsingRule)
    (hok : ListLogParsingRulesMap result = .ok rules) :
    rules = (responseParsingRules result).filterMap keptRuleOfJ := by
  unfold ListLogParsingRulesMap at hok
  rcases h1 : safeMap (jget result (gs "actor")) with ⟨m1, b1⟩
  rw [h1] at hok
  cases b1 with
  | false => simp only at hok; exact Except.noConfusion hok
  | true =>
  simp only at hok
  rcases h2 : safeMap (jget m1 (gs "account")) with ⟨m2, b2⟩
  rw [h2] at hok
  cases b2 with
  | false => simp only at hok; exact Except.noConfusion hok
  | true =>
  simp only at hok
  rcases h3 : safeMap (jget m2 (gs "logConfigurations")) with ⟨m3, b3⟩
  rw [h3] at hok
  cases b3 with
  | false => simp only at hok; exact Except.noConfusion hok
  | true =>
  simp only at hok
  rcases h4 : safeSlice (jget m3 (gs "parsingRules")) with ⟨m4, b4⟩
  rw [h4] at hok
  cases b4 with
  | false => simp only at hok; exact Except.noConfusion hok
  | true =>
  simp only [Except.ok.injEq] at hok
  subst hok
  unfold responseParsingRules
  rw [h1]
  simp only
  rw [h2]
  simp only
  rw [h3]
  simp only
  rw [h4]

theorem keptRuleOfJ_some (e : JValue) (r : LogParsingRule)
    (h : keptRuleOfJ e = some r) :
    ∃ rule, safeMap e = (rule, true) ∧
      jget rule (gs "deleted") ≠ .jbool true ∧ r = logRuleOfJ rule := by
  unfold keptRuleOfJ at h
  rcases h1 : safeMap e with ⟨rule, b⟩
  rw [h1] at h
  cases b with
  | false => simp only at h; exact Option.noConfusion h
  | true =>
  simp only at h
  refine ⟨rule, rfl, ?_, ?_⟩
  · intro hdel
    rw [hdel] at h
    simp only at h
    exact Option.noConfusion h
  · rcases hd : jget rule (gs "deleted") with _ | bb | s | q | xs | m <;>
      rw [hd] at h <;> first
      | (cases bb <;> simp_all)
      | simp_all

/-- C8: for every well-shaped response, `ListLogParsingRules` never
surfaces a rule whose `deleted` field is the boolean `true` (rules
without a boolean `deleted` are kept); consequently `GetLogParsingRule`
and `UpdateLogParsingRule`, which read through the filtered list, report
"rule not found" for an ID all of whose entries are flagged deleted. -/
theorem logs_deleted_never_surfaced (result mutResult : JObj)
    (rules : List LogParsingRule) (ruleID : GoStr)
    (upd : LogParsingRuleUpdate) :
    (ListLogParsingRulesMap result = .ok rules →
      ∀ r ∈ rules, ∃ e ∈ responseParsingRules result, ∃ rule,
        safeMap e = (rule, true) ∧ jget rule (gs "deleted") ≠ .jbool true ∧
        r = logRuleOfJ rule) ∧
    (ListLogParsingRulesMap result = .ok rules →
      (∀ e ∈ responseParsingRules result, ∀ rule, safeMap e = (rule, true) →
        safeString (jget rule (gs "id")) = ruleID →
        jget rule (gs "deleted") = .jbool true) →
      GetLogParsingRuleMap result ruleID = .error (.ruleNotFound ruleID) ∧
      UpdateLogParsingRuleMap result mutResult ruleID upd =
        .error (.ruleNotFound ruleID)) := by
  constructor
  · intro hok r hr
    rw [listLogParsingRules_ok result rules hok] at hr
    rw [List.mem_filterMap] at hr
    obtain ⟨e, he, hkept⟩ := hr
    obtain ⟨rule, h1, h2, h3⟩ := keptRuleOfJ_some e r hkept
    exact ⟨e, he, rule, h1, h2, h3⟩
  · intro hok hdel
    have hnone : rules.find? (fun r => r.ID = ruleID) = none := by
      rw [List.find?_eq_none]
      intro r hr
      rw [listLogParsingRules_ok result rules hok] at hr
      rw [List.mem_filterMap] at hr
      obtain ⟨e, he, hkept⟩ := hr
      obtain ⟨rule, h1, h2, h3⟩ := keptRuleOfJ_some e r hkept
      simp only [decide_eq_true_eq]
      intro hid
      apply h2
      apply hdel e he rule h1
      rw [h3] at hid
      exact hid
    have hget : GetLogParsingRuleMap result ruleID =
        .error (.ruleNotFound ruleID) := by
      unfold GetLogParsingRuleMap
      rw [hok]
      simp only
      rw [hnone]
    refine ⟨hget, ?_⟩
    unfold UpdateLogParsingRuleMap
    rw [hget]

theorem logs_deleted_never_surfaced_witness :
    GetLogParsingRuleMap
        [(gs "actor", .jobj [(gs "account", .jobj [(gs "logConfigurations",
          .jobj [(gs "parsingRules", .jarr [.jobj [(gs "id", .jstr (gs "r1")),
            (gs "deleted", .jbool true)]])])])])] (gs "r1") =
      .error (.ruleNotFound (gs "r1")) := by
  have h := (logs_deleted_never_surfaced
    [(gs "actor", .jobj [(gs "account", .jobj [(gs "logConfigurations",
      .jobj [(gs "parsingRules", .jarr [.jobj [(gs "id", .jstr (gs "r1")),
        (gs "deleted", .jbool true)]])])])])] [] [] (gs "r1")
    ⟨none, none, none, none, none⟩).2 rfl
  refine (h ?_).1
  intro e he rule h1 h2
  have he2 : e ∈ [JValue.jobj [(gs "id", JValue.jstr (gs "r1")),
      (gs "deleted", JValue.jbool true)]] := he
  rw [List.mem_singleton] at he2
  subst he2
  simp only [safeMap, Prod.mk.injEq, and_true] at h1
  subst h1
  rfl

/-- C3: `FilterDeploymentsByTime`: when both bounds are the zero time the
input passes through unchanged for every parser (no parsing is
consulted); otherwise a record whose timestamp fails to parse is always
kept, and a record with a parseable timestamp is in the output exactly
when its instant is not strictly before a set `since` and not strictly
after a set `until` — so boundary-equal timestamps are kept. -/
theorem filter_deployments_spec (parseTS : GoStr → Option Int)
    (deployments : List Deployment) (since untl : Int) :
    (timeIsZero since = true → timeIsZero untl = true →
      FilterDeploymentsByTime parseTS deployments since untl = deployments) ∧
    (¬(timeIsZero since = true ∧ timeIsZero untl = true) →
      ∀ d, d ∈ deployments →
        (d ∈ FilterDeploymentsByTime parseTS deployments since untl ↔
          (parseTS d.Timestamp = none ∨
           ∃ ts, parseTS d.Timestamp = some ts ∧
             (timeIsZero since = true ∨ since ≤ ts) ∧
             (timeIsZero untl = true ∨ ts ≤ untl)))) := by
  constructor
  · intro h1 h2
    unfold FilterDeploymentsByTime
    rw [if_pos (by rw [h1, h2]; rfl)]
  · intro hnz d hd
    unfold FilterDeploymentsByTime
    rw [if_neg (by intro hb; rw [Bool.and_eq_true] at hb; exact hnz hb)]
    rw [List.mem_filter]
    rcases hts : parseTS d.Timestamp with _ | ts
    · simp [hts, hd]
    · simp only [hts]
      constructor
      · rintro ⟨-, hkeep⟩
        right
        refine ⟨ts, rfl, ?_, ?_⟩
        · by_cases hz : timeIsZero since = true
          · exact Or.inl hz
          · right
            rw [Bool.not_eq_true] at hz
            by_contra hlt
            push_neg at hlt
            rw [if_pos (by rw [hz]; simp [hlt])] at hkeep
            exact Bool.noConfusion hkeep
        · by_cases hz : timeIsZero untl = true
          · exact Or.inl hz
          · right
            rw [Bool.not_eq_true] at hz
            by_contra hlt
            push_neg at hlt
            by_cases hz2 : (!timeIsZero since && decide (ts < since)) = true
            · rw [if_pos hz2] at hkeep
              exact Bool.noConfusion hkeep
            · rw [if_neg hz2, if_pos (by rw [hz]; simp [hlt])] at hkeep
              exact Bool.noConfusion hkeep
      · rintro (h | ⟨ts2, hts2, hs, hu⟩)
        · exact Option.noConfusion h
        · have hts3 : ts = ts2 := Option.some.inj hts2
          subst hts3
          refine ⟨hd, ?_⟩
          rw [if_neg ?_, if_neg ?_]
          · intro hb
            rw [Bool.and_eq_true] at hb
            rcases hu with hz | hle
            · rw [Bool.not_eq_true', hz] at hb
              exact Bool.noConfusion hb.1
            · exact absurd (of_decide_eq_true hb.2) (by omega)
          · intro hb
            rw [Bool.and_eq_true] at hb
            rcases hs with hz | hle
            · rw [Bool.not_eq_true', hz] at hb
              exact Bool.noConfusion hb.1
            · exact absurd (of_decide_eq_true hb.2) (by omega)

theorem filter_deployments_spec_witness :
    FilterDeploymentsByTime (fun _ => none)
      [⟨1, gs "v1", [], [], gs "garbage"⟩] goZeroTime goZeroTime =
      [⟨1, gs "v1", [], [], gs "garbage"⟩] ∧
    (⟨1, gs "v1", [], [], gs "garbage"⟩ ∈
      FilterDeploymentsByTime (fun _ => none)
        [⟨1, gs "v1", [], [], gs "garbage"⟩] (goZeroTime + 5) goZeroTime ↔
      ((fun (_ : GoStr) => (none : Option Int)) (gs "garbage") = none ∨
       ∃ ts, (fun (_ : GoStr) => (none : Option Int)) (gs "garbage") = some ts ∧
         (timeIsZero (goZeroTime + 5) = true ∨ goZeroTime + 5 ≤ ts) ∧
         (timeIsZero goZeroTime = true ∨ ts ≤ goZeroTime))) := by
  refine ⟨(filter_deployments_spec _ _ _ _).1 rfl rfl,
    (filter_deployments_spec _ _ _ _).2 ?_ _ ?_⟩
  · intro ⟨ha, _⟩
    have : goZeroTime + 5 = goZeroTime := by
      simpa [timeIsZero] using ha
    omega
  · exact List.mem_singleton.mpr rfl

theorem takeWhile_append_stop (p : Nat → Bool) (l : List Nat) (c : Nat)
    (r : List Nat) (hl : ∀ a ∈ l, p a = true) (hc : p c = false) :
    (l ++ c :: r).takeWhile p = l ∧ (l ++ c :: r).dropWhile p = c :: r := by
  induction l with
  | nil => simp [List.takeWhile_cons, List.dropWhile_cons, hc]
  | cons a t ih =>
      have ha := hl a (by simp)
      have iht := ih (fun x hx => hl x (by simp [hx]))
      simp only [List.cons_append, List.takeWhile_cons, List.dropWhile_cons,
        ha, if_true]
      exact ⟨by rw [iht.1], iht.2⟩

theorem matchRelativeTime_shape (ds : GoStr) (c : Nat) (r : GoStr)
    (hds : ∀ a ∈ ds, isDigitByte a = true) (hc : isDigitByte c = false) :
    matchRelativeTime (ds ++ c :: r) = matchRelTail ds (c :: r) := by
  unfold matchRelativeTime
  rw [(takeWhile_append_stop isDigitByte ds c r hds hc).1,
      (takeWhile_append_stop isDigitByte ds c r hds hc).2]

theorem matchRelTail_plural_units (ds : GoStr) (hds : ds ≠ []) :
    matchRelTail ds (gs " seconds ago") = some (ds, gs "second") ∧
    matchRelTail ds (gs " minutes ago") = some (ds, gs "minute") ∧
    matchRelTail ds (gs " hours ago") = some (ds, gs "hour") ∧
    matchRelTail ds (gs " days ago") = some (ds, gs "day") ∧
    matchRelTail ds (gs " weeks ago") = some (ds, gs "week") ∧
    matchRelTail ds (gs " months ago") = some (ds, gs "month") ∧
    matchRelTail ds (gs " years ago") = some (ds, gs "year") :=
  ⟨by unfold matchRelTail; rw [if_neg hds]; rfl,
   by unfold matchRelTail; rw [if_neg hds]; rfl,
   by unfold matchRelTail; rw [if_neg hds]; rfl,
   by unfold matchRelTail; rw [if_neg hds]; rfl,
   by unfold matchRelTail; rw [if_neg hds]; rfl,
   by unfold matchRelTail; rw [if_neg hds]; rfl,
   by unfold matchRelTail; rw [if_neg hds]; rfl⟩

theorem goTrimSpace_eq_self (s : GoStr)
    (h1 : isSpaceByte (s.headD 0) = false)
    (h2 : isSpaceByte (s.reverse.headD 0) = false) :
    goTrimSpace s = s := by
  have d1 : s.dropWhile isSpaceByte = s := by
    cases s with
    | nil => rfl
    | cons a t =>
        simp only [List.headD_cons] at h1
        simp [List.dropWhile_cons, h1]
  have d2 : s.reverse.dropWhile isSpaceByte = s.reverse := by
    cases hr : s.reverse with
    | nil => rfl
    | cons a t =>
        rw [hr] at h2
        simp only [List.headD_cons] at h2
        simp [List.dropWhile_cons, h2]
  unfold goTrimSpace
  rw [d1, d2, List.reverse_reverse]

theorem goToLower_eq_self (s : GoStr) (h : ∀ c ∈ s, c < 65 ∨ 90 < c) :
    goToLower s = s := by
  unfold goToLower
  conv_rhs => rw [← List.map_id s]
  apply List.map_congr_left
  intro c hc
  have := h c hc
  rw [if_neg (by omega)]
  rfl

theorem goAtoi_digits (ds : GoStr) (hne : ds ≠ [])
    (hall : ∀ a ∈ ds, isDigitByte a = true) :
    goAtoi ds = (if digitsVal ds ≤ 2 ^ 63 - 1 then ((digitsVal ds : Int), none)
                 else ((2 ^ 63 - 1 : Int), some .outOfRange)) := by
  cases ds with
  | nil => exact absurd rfl hne
  | cons c t =>
      have hc := hall c (by simp)
      simp only [isDigitByte, Bool.and_eq_true, decide_eq_true_eq] at hc
      have hall2 : ((c :: t).all fun d => decide (48 ≤ d) && decide (d ≤ 57))
          = true := by
        rw [List.all_eq_true]
        intro x hx
        have := hall x hx
        simpa [isDigitByte] using this
      simp only [goAtoi]
      rw [if_neg (show ¬(c = 43 ∨ c = 45) by omega)]
      rw [if_neg (show ¬(c :: t = []) by simp)]
      rw [if_neg (show ¬(¬((c :: t).all fun d =>
        decide (48 ≤ d) && decide (d ≤ 57)) = true) by simp [hall2])]
      rw [show (decide (c = 45)) = false from decide_eq_false (by omega)]
      simp only [Bool.false_eq_true, if_false]

theorem findUnit_mem (x u r : GoStr) (h : findUnit x = some (u, r)) :
    u ∈ reUnits := by
  unfold findUnit at h
  rcases hf : reUnits.find? (fun v => v.isPrefixOf x) with _ | v
  · rw [hf] at h
    exact Option.noConfusion h
  · rw [hf] at h
    simp only [Option.some.injEq, Prod.mk.injEq] at h
    exact h.1 ▸ List.mem_of_find?_eq_some hf

theorem matchRelativeTime_unit_mem (s ds u : GoStr)
    (h : matchRelativeTime s = some (ds, u)) : u ∈ reUnits := by
  simp only [matchRelativeTime, matchRelTail] at h
  by_cases h1 : s.takeWhile isDigitByte = []
  · rw [if_pos h1] at h
    exact Option.noConfusion h
  rw [if_neg h1] at h
  by_cases h2 : (s.dropWhile isDigitByte).takeWhile reSpaceByte = []
  · rw [if_pos h2] at h
    exact Option.noConfusion h
  rw [if_neg h2] at h
  rcases hf : findUnit ((s.dropWhile isDigitByte).dropWhile reSpaceByte)
    with _ | ⟨u2, r3⟩
  · rw [hf] at h
    exact Option.noConfusion h
  · rw [hf] at h
    simp only at h
    split_ifs at h
    all_goals first
      | exact Option.noConfusion h
      | (simp only [Option.some.injEq, Prod.mk.injEq] at h
         exact h.2 ▸ findUnit_mem _ _ _ hf)

theorem parseRelativeTime_ok_of_unit (now : GoTime) (a : Int) (u : GoStr)
    (hu : u ∈ reUnits) : ∃ t, parseRelativeTime now a u = .ok t := by
  simp only [reUnits, List.mem_cons, List.not_mem_nil, or_false] at hu
  rcases hu with rfl | rfl | rfl | rfl | rfl | rfl | rfl
  · exact Exists.intro _ (by
      unfold parseRelativeTime
      rw [if_pos rfl])
  · exact Exists.intro _ (by
      unfold parseRelativeTime
      rw [if_neg (by decide), if_pos rfl])
  · exact Exists.intro _ (by
      unfold parseRelativeTime
      rw [if_neg (by decide), if_neg (by decide), if_pos rfl])
  · exact Exists.intro _ (by
      unfold parseRelativeTime
      rw [if_neg (by decide), if_neg (by decide), if_neg (by decide),
      if_pos rfl])
  · exact Exists.intro _ (by
      unfold parseRelativeTime
      rw [if_neg (by decide), if_neg (by decide), if_neg (by decide),
      if_neg (by decide), if_pos rfl])
  · exact Exists.intro _ (by
      unfold parseRelativeTime
      rw [if_neg (by decide), if_neg (by decide), if_neg (by decide),
      if_neg (by decide), if_neg (by decide), if_pos rfl])
  · exact Exists.intro _ (by
      unfold parseRelativeTime
      rw [if_neg (by decide), if_neg (by decide), if_neg (by decide),
      if_neg (by decide), if_neg (by decide), if_neg (by decide),
      if_pos rfl])

/-- C10 (amended): every trimmed, lower-cased input matched by the
relative-time pattern parses successfully — the "unknown time unit"
branch is unreachable because the pattern only produces the seven unit
words; but a digit group too large for int64 is clamped by `Atoi` to
`MaxInt64` (the discarded range error leaves the clamp value, not 0), so
the parse succeeds with a timestamp that need not be the current
instant. -/
theorem regex_match_always_succeeds :
    (∀ (pf : GoStr → Option GoTime) (now : GoTime) (s ds u : GoStr),
      matchRelativeTime (goToLower (goTrimSpace s)) = some (ds, u) →
      ∃ t, ParseFlexibleTime pf now s = .ok t) ∧
    (∀ ds, ds ≠ [] → (∀ a ∈ ds, isDigitByte a = true) →
      2 ^ 63 - 1 < digitsVal ds → (goAtoi ds).1 = 2 ^ 63 - 1) := by
  constructor
  · intro pf now s ds u hm
    unfold ParseFlexibleTime
    by_cases h0 : goTrimSpace s = []
    · rw [h0] at hm
      have hemp : goToLower [] = [] := rfl
      rw [hemp] at hm
      have : matchRelativeTime [] = none := rfl
      rw [this] at hm
      exact Option.noConfusion hm
    rw [if_neg h0]
    by_cases h1 : goToLower (goTrimSpace s) = gs "now"
    · rw [if_pos h1]
      exact ⟨_, rfl⟩
    rw [if_neg h1]
    by_cases h2 : goToLower (goTrimSpace s) = gs "today"
    · rw [if_pos h2]
      exact ⟨_, rfl⟩
    rw [if_neg h2]
    by_cases h3 : goToLower (goTrimSpace s) = gs "yesterday"
    · rw [if_pos h3]
      exact ⟨_, rfl⟩
    rw [if_neg h3, hm]
    exact parseRelativeTime_ok_of_unit now _ u
      (matchRelativeTime_unit_mem _ _ _ hm)
  · intro ds hne hall hlt
    rw [goAtoi_digits ds hne hall, if_neg (by omega)]

/-- C10 counterexample: a 20-digit amount does not become 0 — `Atoi`
clamps it to MaxInt64 and the parse result is not the current instant
(the claim predicted amount 0, i.e. the result `now`). -/
theorem regex_match_overflow_cex :
    ParseFlexibleTime (fun _ => none) ⟨0, 0⟩
        (gs "99999999999999999999 seconds ago") ≠
      .ok (⟨0, 0⟩ : GoTime) ∧
    (goAtoi (gs "99999999999999999999")).1 = 2 ^ 63 - 1 := by
  exact ⟨by decide, by decide⟩

theorem regex_match_always_succeeds_witness :
    (∃ t, ParseFlexibleTime (fun _ => none) ⟨20000, 0⟩ (gs "3 days ago") =
      .ok t) ∧
    (goAtoi (gs "99999999999999999999")).1 = 2 ^ 63 - 1 := by
  refine ⟨regex_match_always_succeeds.1 (fun _ => none) ⟨20000, 0⟩
      (gs "3 days ago") (gs "3") (gs "day") (by decide),
    regex_match_always_succeeds.2 (gs "99999999999999999999") (by decide)
      (by decide) (by decide)⟩

theorem digits_head_not_space (ds tail : GoStr) (hne : ds ≠ [])
    (hd : ∀ a ∈ ds, isDigitByte a = true) :
    isSpaceByte ((ds ++ tail).headD 0) = false := by
  cases ds with
  | nil => exact absurd rfl hne
  | cons d0 dt =>
      have hdig := hd d0 (by simp)
      simp only [isDigitByte, Bool.and_eq_true, decide_eq_true_eq] at hdig
      simp only [List.cons_append, List.headD_cons, isSpaceByte]
      simp only [Bool.or_eq_false_iff, decide_eq_false_iff_not]
      omega

theorem digits_append_ne_kw (ds tail kw : GoStr) (hne : ds ≠ [])
    (hd : ∀ a ∈ ds, isDigitByte a = true)
    (hk : isDigitByte (kw.headD 0) = false) : ds ++ tail ≠ kw := by
  cases ds with
  | nil => exact absurd rfl hne
  | cons d0 dt =>
      intro heq
      have hdig := hd d0 (by simp)
      have hh := congrArg (fun l => List.headD l 0) heq
      simp only [List.cons_append, List.headD_cons] at hh
      rw [← hh] at hk
      rw [hdig] at hk
      exact Bool.noConfusion hk

theorem ParseFlexibleTime_relative (pf : GoStr → Option GoTime)
    (now : GoTime) (ds tail u : GoStr) (hne : ds ≠ [])
    (hd : ∀ a ∈ ds, isDigitByte a = true)
    (htail : ∀ c ∈ (32 :: tail : GoStr), c < 65 ∨ 90 < c)
    (hrev : isSpaceByte ((ds ++ 32 :: tail).reverse.headD 0) = false)
    (hmt : matchRelTail ds (32 :: tail) = some (ds, u)) :
    ParseFlexibleTime pf now (ds ++ 32 :: tail) =
      parseRelativeTime now (goAtoi ds).1 u := by
  have htrim : goTrimSpace (ds ++ 32 :: tail) = ds ++ 32 :: tail :=
    goTrimSpace_eq_self _ (digits_head_not_space ds _ hne hd) hrev
  have hlower : goToLower (ds ++ 32 :: tail) = ds ++ 32 :: tail := by
    apply goToLower_eq_self
    intro c hc
    rcases List.mem_append.mp hc with h | h
    · have hdig := hd c h
      simp only [isDigitByte, Bool.and_eq_true, decide_eq_true_eq] at hdig
      omega
    · exact htail c h
  have hmatch : matchRelativeTime (ds ++ 32 :: tail) = some (ds, u) := by
    rw [matchRelativeTime_shape ds 32 tail hd (by decide), hmt]
  have hsne : ds ++ 32 :: tail ≠ [] := by
    cases ds <;> simp
  simp only [ParseFlexibleTime]
  rw [htrim, hlower,
    if_neg hsne,
    if_neg (digits_append_ne_kw ds _ (gs "now") hne hd (by decide)),
    if_neg (digits_append_ne_kw ds _ (gs "today") hne hd (by decide)),
    if_neg (digits_append_ne_kw ds _ (gs "yesterday") hne hd (by decide)),
    hmatch]

/-- C6 (amended): relative time arithmetic on strings "N <unit>s ago":
when the resulting duration fits in int64, seconds/minutes/hours
subtract the exact duration N×unit from `now`; "N days ago" moves the
civil date exactly N calendar days back (clock unchanged), "N weeks
ago" exactly 7·N calendar days; "N months ago" / "N years ago" apply
the calendar-aware `AddDate` month/year arithmetic, which is not a
fixed duration.  (Amounts whose duration overflows int64 wrap — see the
counterexample.) -/
theorem relative_time_arithmetic (pf : GoStr → Option GoTime)
    (now : GoTime) (ds : GoStr) (hne : ds ≠ [])
    (hd : ∀ a ∈ ds, isDigitByte a = true) :
    ((digitsVal ds : Int) * 1000000000 < 2 ^ 63 →
      ParseFlexibleTime pf now (ds ++ gs " seconds ago") =
        .ok (timeAdd now (-((digitsVal ds : Int) * 1000000000))) ∧
      toNs (timeAdd now (-((digitsVal ds : Int) * 1000000000))) =
        toNs now - (digitsVal ds : Int) * 1000000000) ∧
    ((digitsVal ds : Int) * 60000000000 < 2 ^ 63 →
      ParseFlexibleTime pf now (ds ++ gs " minutes ago") =
        .ok (timeAdd now (-((digitsVal ds : Int) * 60000000000)))) ∧
    ((digitsVal ds : Int) * 3600000000000 < 2 ^ 63 →
      ParseFlexibleTime pf now (ds ++ gs " hours ago") =
        .ok (timeAdd now (-((digitsVal ds : Int) * 3600000000000)))) ∧
    ((digitsVal ds : Int) < 2 ^ 63 →
      ParseFlexibleTime pf now (ds ++ gs " days ago") =
        .ok ⟨now.days - (digitsVal ds : Int), now.nsec⟩) ∧
    (7 * (digitsVal ds : Int) < 2 ^ 63 →
      ParseFlexibleTime pf now (ds ++ gs " weeks ago") =
        .ok ⟨now.days - 7 * (digitsVal ds : Int), now.nsec⟩) ∧
    ((digitsVal ds : Int) < 2 ^ 63 →
      ParseFlexibleTime pf now (ds ++ gs " months ago") =
        .ok (addDate now 0 (-(digitsVal ds : Int)) 0) ∧
      ParseFlexibleTime pf now (ds ++ gs " years ago") =
        .ok (addDate now (-(digitsVal ds : Int)) 0 0)) ∧
    (∃ t1 t2 : GoTime,
      toNs t1 - toNs (addDate t1 0 (-1) 0) ≠
        toNs t2 - toNs (addDate t2 0 (-1) 0)) := by
  have hN0 : (0 : Int) ≤ (digitsVal ds : Int) := Int.ofNat_nonneg _
  have hfst : ∀ z : Int, ((z, (none : Option AtoiErr))).1 = z := fun _ => rfl
  refine ⟨?_, ?_, ?_, ?_, ?_, ?_, ?_⟩
  · intro hb
    have hmt : matchRelTail ds (32 :: gs "seconds ago") =
        some (ds, gs "second") := (matchRelTail_plural_units ds hne).1
    have heval : ParseFlexibleTime pf now (ds ++ gs " seconds ago") =
        parseRelativeTime now (goAtoi ds).1 (gs "second") :=
      ParseFlexibleTime_relative pf now ds (gs "seconds ago") (gs "second")
        hne hd (by decide) (by rw [List.reverse_append]; rfl) hmt
    rw [heval, goAtoi_digits ds hne hd, if_pos (by omega), hfst]
    unfold parseRelativeTime
    rw [if_pos rfl,
      wrap64_eq_self (-(digitsVal ds : Int)) (by omega) (by omega),
      wrap64_eq_self (-(digitsVal ds : Int) * 1000000000) (by omega)
        (by omega),
      show -(digitsVal ds : Int) * 1000000000 =
        -((digitsVal ds : Int) * 1000000000) from by ring]
    exact ⟨rfl, by rw [toNs_timeAdd]; ring⟩
  · intro hb
    have hmt : matchRelTail ds (32 :: gs "minutes ago") =
        some (ds, gs "minute") := (matchRelTail_plural_units ds hne).2.1
    have heval : ParseFlexibleTime pf now (ds ++ gs " minutes ago") =
        parseRelativeTime now (goAtoi ds).1 (gs "minute") :=
      ParseFlexibleTime_relative pf now ds (gs "minutes ago") (gs "minute")
        hne hd (by decide) (by rw [List.reverse_append]; rfl) hmt
    rw [heval, goAtoi_digits ds hne hd, if_pos (by omega), hfst]
    unfold parseRelativeTime
    rw [if_neg (by decide), if_pos rfl,
      wrap64_eq_self (-(digitsVal ds : Int)) (by omega) (by omega),
      wrap64_eq_self (-(digitsVal ds : Int) * 60000000000) (by omega)
        (by omega),
      show -(digitsVal ds : Int) * 60000000000 =
        -((digitsVal ds : Int) * 60000000000) from by ring]
  · intro hb
    have hmt : matchRelTail ds (32 :: gs "hours ago") =
        some (ds, gs "hour") := (matchRelTail_plural_units ds hne).2.2.1
    have heval : ParseFlexibleTime pf now (ds ++ gs " hours ago") =
        parseRelativeTime now (goAtoi ds).1 (gs "hour") :=
      ParseFlexibleTime_relative pf now ds (gs "hours ago") (gs "hour")
        hne hd (by decide) (by rw [List.reverse_append]; rfl) hmt
    rw [heval, goAtoi_digits ds hne hd, if_pos (by omega), hfst]
    unfold parseRelativeTime
    rw [if_neg (by decide), if_neg (by decide), if_pos rfl,
      wrap64_eq_self (-(digitsVal ds : Int)) (by omega) (by omega),
      wrap64_eq_self (-(digitsVal ds : Int) * 3600000000000) (by omega)
        (by omega),
      show -(digitsVal ds : Int) * 3600000000000 =
        -((digitsVal ds : Int) * 3600000000000) from by ring]
  · intro hb
    have hmt : matchRelTail ds (32 :: gs "days ago") =
        some (ds, gs "day") := (matchRelTail_plural_units ds hne).2.2.2.1
    have heval : ParseFlexibleTime pf now (ds ++ gs " days ago") =
        parseRelativeTime now (goAtoi ds).1 (gs "day") :=
      ParseFlexibleTime_relative pf now ds (gs "days ago") (gs "day")
        hne hd (by decide) (by rw [List.reverse_append]; rfl) hmt
    rw [heval, goAtoi_digits ds hne hd, if_pos (by omega), hfst]
    unfold parseRelativeTime
    rw [if_neg (by decide), if_neg (by decide), if_neg (by decide),
      if_pos rfl,
      wrap64_eq_self (-(digitsVal ds : Int)) (by omega) (by omega),
      addDate_days now (-(digitsVal ds : Int)),
      show now.days - (digitsVal ds : Int) =
        now.days + -(digitsVal ds : Int) from by ring]
  · intro hb
    have hmt : matchRelTail ds (32 :: gs "weeks ago") =
        some (ds, gs "week") := (matchRelTail_plural_units ds hne).2.2.2.2.1
    have heval : ParseFlexibleTime pf now (ds ++ gs " weeks ago") =
        parseRelativeTime now (goAtoi ds).1 (gs "week") :=
      ParseFlexibleTime_relative pf now ds (gs "weeks ago") (gs "week")
        hne hd (by decide) (by rw [List.reverse_append]; rfl) hmt
    rw [heval, goAtoi_digits ds hne hd, if_pos (by omega), hfst]
    unfold parseRelativeTime
    rw [if_neg (by decide), if_neg (by decide), if_neg (by decide),
      if_neg (by decide), if_pos rfl,
      wrap64_eq_self (-(digitsVal ds : Int)) (by omega) (by omega),
      wrap64_eq_self (-(digitsVal ds : Int) * 7) (by omega) (by omega),
      addDate_days now (-(digitsVal ds : Int) * 7),
      show now.days - 7 * (digitsVal ds : Int) =
        now.days + -(digitsVal ds : Int) * 7 from by ring]
  · intro hb
    constructor
    · have hmt : matchRelTail ds (32 :: gs "months ago") =
          some (ds, gs "month") :=
        (matchRelTail_plural_units ds hne).2.2.2.2.2.1
      have heval : ParseFlexibleTime pf now (ds ++ gs " months ago") =
          parseRelativeTime now (goAtoi ds).1 (gs "month") :=
        ParseFlexibleTime_relative pf now ds (gs "months ago") (gs "month")
          hne hd (by decide) (by rw [List.reverse_append]; rfl) hmt
      rw [heval, goAtoi_digits ds hne hd, if_pos (by omega), hfst]
      unfold parseRelativeTime
      rw [if_neg (by decide), if_neg (by decide), if_neg (by decide),
        if_neg (by decide), if_neg (by decide), if_pos rfl,
        wrap64_eq_self (-(digitsVal ds : Int)) (by omega) (by omega)]
    · have hmt : matchRelTail ds (32 :: gs "years ago") =
          some (ds, gs "year") :=
        (matchRelTail_plural_units ds hne).2.2.2.2.2.2
      have heval : ParseFlexibleTime pf now (ds ++ gs " years ago") =
          parseRelativeTime now (goAtoi ds).1 (gs "year") :=
        ParseFlexibleTime_relative pf now ds (gs "years ago") (gs "year")
          hne hd (by decide) (by rw [List.reverse_append]; rfl) hmt
      rw [heval, goAtoi_digits ds hne hd, if_pos (by omega), hfst]
      unfold parseRelativeTime
      rw [if_neg (by decide), if_neg (by decide), if_neg (by decide),
        if_neg (by decide), if_neg (by decide), if_neg (by decide),
        if_pos rfl,
        wrap64_eq_self (-(digitsVal ds : Int)) (by omega) (by omega)]
  · refine ⟨⟨daysFromCivil 2025 3 15, 0⟩, ⟨daysFromCivil 2025 2 15, 0⟩, ?_⟩
    decide

/-- C6 counterexample: with amount `MaxInt64`, "N seconds ago" does not
subtract the exact duration N seconds — the 64-bit duration
multiplication wraps (to +1 second here), so the universally quantified
exactness claim fails at this amount. -/
theorem relative_time_arithmetic_cex :
    ParseFlexibleTime (fun _ => none) ⟨0, 0⟩
        (gs "9223372036854775807 seconds ago") ≠
      .ok (timeAdd ⟨0, 0⟩ (-((9223372036854775807 : Int) * 1000000000))) := by
  decide

theorem relative_time_arithmetic_witness :
    ParseFlexibleTime (fun _ => none) ⟨20000, 5⟩ (gs "7 days ago") =
      .ok ⟨(20000 : Int) - (digitsVal (gs "7") : Int), (5 : Int)⟩ := by
  exact (relative_time_arithmetic (fun _ => none) ⟨20000, 5⟩ (gs "7")
    (by decide) (by decide)).2.2.2.1 (by decide)
